import Mathlib

/-!
Verification of the per-user OAuth2 authorization-code lifecycle and
credential-cache subsystem shared by the Schwab and TastyTrade serverless
handlers of this repository.

Modelling conventions (shallow embedding):

* JavaScript strings are modelled at the byte level as `List Nat` (the UTF-8
  bytes of the string); all operations the handlers perform on them
  (`lastIndexOf`, `slice`, concatenation, inclusion tests) act on these lists.
* `Buffer.toString("base64")` / `Buffer.from(_, "base64")` are modelled by
  `base64Encode` / `base64Decode` below; the handlers' own `toBase64Url` /
  `fromBase64Url` wrappers are translated on top of them, character
  replacements and padding logic included.
* `JSON.stringify` / `JSON.parse` are modelled for the flat objects the
  handlers serialize (string and non-negative integer fields, no nested
  structure and no inter-token whitespace — exactly the grammar
  `JSON.stringify` emits for these payloads).
* `createHmac("sha256", secret)` is an external cryptographic primitive; it is
  passed to the translated functions as an explicit argument
  `hmacHex : List Nat → List Nat → List Nat` (secret, message ↦ hex digest
  bytes); the structural facts the code relies on (the digest is 64 lowercase
  hex characters) appear as hypotheses where needed.
* Effects (SSM parameter store, provider HTTP responses, `Date.now()`,
  `randomUUID()`) are made explicit: the store is a function from parameter
  name to stored record, provider responses and timestamps are arguments, and
  functions that throw return `Except` with the thrown message.
-/

/-- Bytes of a JavaScript string (its UTF-8 encoding), the base type of the
string model. -/
abbrev Bytes := List Nat

/-- Bytes of an ASCII string literal, used to transcribe the constant strings
appearing in the source. -/
def strBytes (s : String) : Bytes := s.data.map Char.toNat

/-- Character of the standard base64 alphabet for a 6-bit value, as used by
`Buffer.toString("base64")`. -/
def base64Char (i : Nat) : Nat :=
  if i < 26 then 65 + i
  else if i < 52 then 97 + (i - 26)
  else if i < 62 then 48 + (i - 52)
  else if i = 62 then 43
  else 47

/-- Six-bit value of a standard base64 alphabet character (inverse of
`base64Char`; unknown characters map to 0, matching the forgiving decoder). -/
def base64Val (c : Nat) : Nat :=
  if 65 ≤ c ∧ c ≤ 90 then c - 65
  else if 97 ≤ c ∧ c ≤ 122 then c - 97 + 26
  else if 48 ≤ c ∧ c ≤ 57 then c - 48 + 52
  else if c = 43 then 62
  else if c = 47 then 63
  else 0

/-- Model of `Buffer.from(bytes).toString("base64")`: standard base64 with
`=` (61) padding. -/
def base64Encode : Bytes → Bytes
  | a :: b :: c :: rest =>
      base64Char (a / 4) :: base64Char (a % 4 * 16 + b / 16) ::
      base64Char (b % 16 * 4 + c / 64) :: base64Char (c % 64) :: base64Encode rest
  | [a, b] => [base64Char (a / 4), base64Char (a % 4 * 16 + b / 16), base64Char (b % 16 * 4), 61]
  | [a] => [base64Char (a / 4), base64Char (a % 4 * 16), 61, 61]
  | [] => []

/-- Model of `Buffer.from(text, "base64")`: decodes four-character groups,
honouring `=` padding. -/
def base64Decode : Bytes → Bytes
  | c0 :: c1 :: c2 :: c3 :: rest =>
      if c2 = 61 then [base64Val c0 * 4 + base64Val c1 / 16]
      else if c3 = 61 then
        [base64Val c0 * 4 + base64Val c1 / 16, base64Val c1 % 16 * 16 + base64Val c2 / 4]
      else
        (base64Val c0 * 4 + base64Val c1 / 16) ::
        (base64Val c1 % 16 * 16 + base64Val c2 / 4) ::
        (base64Val c2 % 4 * 64 + base64Val c3) :: base64Decode rest
  | _ => []

theorem base64Val_base64Char : ∀ i < 64, base64Val (base64Char i) = i := by decide

theorem base64Char_ne_61 : ∀ i < 64, base64Char i ≠ 61 := by decide

theorem base64Char_ne_45 : ∀ i < 64, base64Char i ≠ 45 := by decide

theorem base64Char_ne_95 : ∀ i < 64, base64Char i ≠ 95 := by decide

theorem base64Char_lt_256 : ∀ i < 64, base64Char i < 256 := by decide

/-- First reconstructed byte of a base64 group equals the first input byte. -/
theorem b64byte0 (a b : Nat) (hb : b < 256) :
    a / 4 * 4 + (a % 4 * 16 + b / 16) / 16 = a := by
  have hd : b / 16 < 16 := by omega
  have h1 : (a % 4 * 16 + b / 16) / 16 = a % 4 := by omega
  omega

/-- Second reconstructed byte of a base64 group equals the second input byte. -/
theorem b64byte1 (a b c : Nat) (hb : b < 256) (hc : c < 256) :
    (a % 4 * 16 + b / 16) % 16 * 16 + (b % 16 * 4 + c / 64) / 4 = b := by
  have hd : b / 16 < 16 := by omega
  have he : c / 64 < 4 := by omega
  have h1 : (a % 4 * 16 + b / 16) % 16 = b / 16 := by omega
  have h2 : (b % 16 * 4 + c / 64) / 4 = b % 16 := by omega
  omega

/-- Third reconstructed byte of a base64 group equals the third input byte. -/
theorem b64byte2 (b c : Nat) (hc : c < 256) :
    (b % 16 * 4 + c / 64) % 4 * 64 + c % 64 = c := by
  have he : c / 64 < 4 := by omega
  have h1 : (b % 16 * 4 + c / 64) % 4 = c / 64 := by omega
  omega

/-- The decoder inverts the encoder on byte lists (every element below 256). -/
theorem base64Decode_base64Encode :
    ∀ l : Bytes, (∀ b ∈ l, b < 256) → base64Decode (base64Encode l) = l := by
  intro l
  match l with
  | [] => intro _; rfl
  | [a] =>
      intro h
      have ha : a < 256 := h a (by simp)
      have h1 : a / 4 < 64 := by omega
      have h2 : a % 4 * 16 < 64 := by omega
      have e0 : a / 4 * 4 + a % 4 * 16 / 16 = a := by
        have h3 : a % 4 * 16 / 16 = a % 4 := by omega
        omega
      simp only [base64Encode, base64Decode, if_pos rfl,
        base64Val_base64Char _ h1, base64Val_base64Char _ h2, e0, if_true]
  | [a, b] =>
      intro h
      have ha : a < 256 := h a (by simp)
      have hb : b < 256 := h b (by simp)
      have h1 : a / 4 < 64 := by omega
      have h2 : a % 4 * 16 + b / 16 < 64 := by omega
      have h3 : b % 16 * 4 < 64 := by omega
      have e0 : a / 4 * 4 + (a % 4 * 16 + b / 16) / 16 = a := b64byte0 a b hb
      have e1 : (a % 4 * 16 + b / 16) % 16 * 16 + b % 16 * 4 / 4 = b := by
        have := b64byte1 a b 0 hb (by omega)
        simpa using this
      simp only [base64Encode, base64Decode, if_neg (base64Char_ne_61 _ h3), if_pos rfl,
        base64Val_base64Char _ h1, base64Val_base64Char _ h2, base64Val_base64Char _ h3,
        e0, e1, if_true]
  | a :: b :: c :: rest =>
      intro h
      have ha : a < 256 := h a (by simp)
      have hb : b < 256 := h b (by simp)
      have hc : c < 256 := h c (by simp)
      have h1 : a / 4 < 64 := by omega
      have h2 : a % 4 * 16 + b / 16 < 64 := by omega
      have h3 : b % 16 * 4 + c / 64 < 64 := by omega
      have h4 : c % 64 < 64 := by omega
      have ih := base64Decode_base64Encode rest (fun x hx => h x (by simp [hx]))
      have e0 := b64byte0 a b hb
      have e1 := b64byte1 a b c hb hc
      have e2 := b64byte2 b c hc
      simp only [base64Encode, base64Decode,
        if_neg (base64Char_ne_61 _ h3), if_neg (base64Char_ne_61 _ h4),
        base64Val_base64Char _ h1, base64Val_base64Char _ h2,
        base64Val_base64Char _ h3, base64Val_base64Char _ h4, ih, e0, e1, e2]

/-- Membership in the standard base64 output character set (alphabet plus the
padding character 61). -/
def B64C (c : Nat) : Prop :=
  (65 ≤ c ∧ c ≤ 90) ∨ (97 ≤ c ∧ c ≤ 122) ∨ (48 ≤ c ∧ c ≤ 57) ∨ c = 43 ∨ c = 47 ∨ c = 61

theorem base64Char_B64C (i : Nat) : B64C (base64Char i) := by
  simp only [B64C, base64Char]
  split_ifs <;> omega

theorem base64Char_ne_61' (i : Nat) : base64Char i ≠ 61 := by
  simp only [base64Char]
  split_ifs <;> omega

/-- Model of the replacement `+ → -`, `/ → _` of `toBase64Url` (applied
characterwise by `String.replace` with global regexps). -/
def stdToUrlByte (c : Nat) : Nat :=
  if c = 43 then 45 else if c = 47 then 95 else c

/-- Model of the replacement `- → +`, `_ → /` of `fromBase64Url`. -/
def urlToStdByte (c : Nat) : Nat :=
  if c = 45 then 43 else if c = 95 then 47 else c

theorem urlToStdByte_stdToUrlByte (c : Nat) (h : B64C c) :
    urlToStdByte (stdToUrlByte c) = c := by
  have h45 : c ≠ 45 := by rcases h with h | h | h | h | h | h <;> omega
  have h95 : c ≠ 95 := by rcases h with h | h | h | h | h | h <;> omega
  by_cases h43 : c = 43
  · subst h43; rfl
  · by_cases h47 : c = 47
    · subst h47; rfl
    · simp [stdToUrlByte, urlToStdByte, h43, h47, h45, h95]

theorem gf_base64Char (i : Nat) :
    urlToStdByte (stdToUrlByte (base64Char i)) = base64Char i :=
  urlToStdByte_stdToUrlByte _ (base64Char_B64C i)

theorem stdToUrlByte_eq_61_iff (c : Nat) : stdToUrlByte c = 61 ↔ c = 61 := by
  simp only [stdToUrlByte]
  split_ifs with h1 h2 <;> omega

theorem stdToUrlByte_base64Char_ne_61 (i : Nat) : stdToUrlByte (base64Char i) ≠ 61 := by
  rw [Ne, stdToUrlByte_eq_61_iff]
  exact base64Char_ne_61' i

/-- Model of the regexp `=+$` strip of `toBase64Url`: removes the trailing
padding characters. -/
def stripTrailingEquals (l : Bytes) : Bytes :=
  (l.reverse.dropWhile (fun c => c == 61)).reverse

/-- Model of the padding computation of `fromBase64Url`: re-appends `=` up to a
multiple of four characters. -/
def addBase64Padding (l : Bytes) : Bytes :=
  if l.length % 4 = 0 then l else l ++ List.replicate (4 - l.length % 4) 61

/-- Translation of `toBase64Url` (part_005 line 102, part_007 line 226):
base64, then `+ / =` made URL-safe. -/
def toBase64Url (l : Bytes) : Bytes :=
  stripTrailingEquals ((base64Encode l).map stdToUrlByte)

/-- Translation of `fromBase64Url` (part_005 line 110, part_007 line 234):
restores the alphabet and padding, then decodes. -/
def fromBase64Url (l : Bytes) : Bytes :=
  base64Decode (addBase64Padding (l.map urlToStdByte))

theorem dropWhile_append_of_ne {p : Nat → Bool} (u v : Bytes)
    (h : u.dropWhile p ≠ []) :
    (u ++ v).dropWhile p = u.dropWhile p ++ v := by
  induction u with
  | nil => exact absurd rfl h
  | cons x xs ih =>
      by_cases hx : p x
      · simp only [List.cons_append, List.dropWhile_cons, hx, if_true] at h ⊢
        exact ih h
      · simp only [List.cons_append, List.dropWhile_cons, hx, if_false]
        simp [hx]

theorem stripTrailingEquals_append (y w : Bytes) (h : stripTrailingEquals w ≠ []) :
    stripTrailingEquals (y ++ w) = y ++ stripTrailingEquals w := by
  have hw : w.reverse.dropWhile (fun c => c == 61) ≠ [] := by
    intro hc
    apply h
    simp [stripTrailingEquals, hc]
  simp only [stripTrailingEquals, List.reverse_append]
  rw [dropWhile_append_of_ne _ _ hw]
  simp

theorem stripTrailingEquals_ne_nil (w : Bytes) (x : Nat) (hx : x ∈ w) (hne : x ≠ 61) :
    stripTrailingEquals w ≠ [] := by
  intro hc
  have h1 : w.reverse.dropWhile (fun c => c == 61) = [] := by
    have := congrArg List.reverse hc
    simpa [stripTrailingEquals] using this
  rw [List.dropWhile_eq_nil_iff] at h1
  have := h1 x (by simpa using hx)
  simp at this
  exact hne this

theorem strip4_keep2 (x y : Nat) (hy : y ≠ 61) :
    stripTrailingEquals [x, y, 61, 61] = [x, y] := by
  have h : (y == 61) = false := by simpa using hy
  simp [stripTrailingEquals, List.dropWhile_cons, h]

theorem strip4_keep3 (x y z : Nat) (hz : z ≠ 61) :
    stripTrailingEquals [x, y, z, 61] = [x, y, z] := by
  have h : (z == 61) = false := by simpa using hz
  simp [stripTrailingEquals, List.dropWhile_cons, h]

theorem strip4_keep4 (x y z w : Nat) (hw : w ≠ 61) :
    stripTrailingEquals [x, y, z, w] = [x, y, z, w] := by
  have h : (w == 61) = false := by simpa using hw
  simp [stripTrailingEquals, List.dropWhile_cons, h]

theorem addBase64Padding_four_append (y v : Bytes) (hy : y.length = 4) :
    addBase64Padding (y ++ v) = y ++ addBase64Padding v := by
  simp only [addBase64Padding, List.length_append, hy]
  have hm : (4 + v.length) % 4 = v.length % 4 := by omega
  rw [hm]
  split
  · rfl
  · simp

theorem stdToUrlByte_61 : stdToUrlByte 61 = 61 := rfl

/-- Undoing the URL-safe transformation and re-padding recovers the exact
standard base64 text. -/
theorem urlRecode (l : Bytes) :
    addBase64Padding
      ((stripTrailingEquals ((base64Encode l).map stdToUrlByte)).map urlToStdByte) =
    base64Encode l := by
  match l with
  | [] => rfl
  | [a] =>
      simp only [base64Encode, List.map_cons, List.map_nil, stdToUrlByte_61]
      rw [strip4_keep2 _ _ (stdToUrlByte_base64Char_ne_61 _)]
      simp [gf_base64Char, addBase64Padding, List.replicate]
  | [a, b] =>
      simp only [base64Encode, List.map_cons, List.map_nil, stdToUrlByte_61]
      rw [strip4_keep3 _ _ _ (stdToUrlByte_base64Char_ne_61 _)]
      simp [gf_base64Char, addBase64Padding, List.replicate]
  | [a, b, c] =>
      simp only [base64Encode, List.map_cons, List.map_nil, stdToUrlByte_61]
      rw [strip4_keep4 _ _ _ _ (stdToUrlByte_base64Char_ne_61 _)]
      simp [gf_base64Char, addBase64Padding]
  | a :: b :: c :: d :: rest =>
      have ih := urlRecode (d :: rest)
      have hy4 : base64Encode (a :: b :: c :: d :: rest) =
          [base64Char (a / 4), base64Char (a % 4 * 16 + b / 16),
            base64Char (b % 16 * 4 + c / 64), base64Char (c % 64)]
            ++ base64Encode (d :: rest) := by
        simp [base64Encode]
      have hhead : stdToUrlByte (base64Char (d / 4)) ∈
          (base64Encode (d :: rest)).map stdToUrlByte := by
        have hmem : base64Char (d / 4) ∈ base64Encode (d :: rest) := by
          match rest with
          | [] => simp [base64Encode]
          | [e] => simp [base64Encode]
          | e :: f :: rest2 => simp [base64Encode]
        exact List.mem_map_of_mem _ hmem
      have hne : stripTrailingEquals ((base64Encode (d :: rest)).map stdToUrlByte) ≠ [] :=
        stripTrailingEquals_ne_nil _ _ hhead (stdToUrlByte_base64Char_ne_61 _)
      rw [hy4, List.map_append, stripTrailingEquals_append _ _ hne, List.map_append]
      simp only [List.map_cons, List.map_nil, gf_base64Char]
      rw [addBase64Padding_four_append _ _ (by simp)]
      rw [ih]

/-- Round-trip law of the handlers' URL-safe base64 pair: `fromBase64Url`
inverts `toBase64Url` on byte lists. -/
theorem fromBase64Url_toBase64Url (l : Bytes) (h : ∀ b ∈ l, b < 256) :
    fromBase64Url (toBase64Url l) = l := by
  rw [fromBase64Url, toBase64Url, urlRecode]
  exact base64Decode_base64Encode l h

/-- Model of `String.prototype.lastIndexOf` for a single character: index of
the last occurrence, `none` when absent (the source's -1). -/
def lastIndexOf (x : Nat) : Bytes → Option Nat
  | [] => none
  | a :: rest =>
    match lastIndexOf x rest with
    | some i => some (i + 1)
    | none => if a = x then some 0 else none

theorem lastIndexOf_eq_none_iff (x : Nat) (l : Bytes) :
    lastIndexOf x l = none ↔ x ∉ l := by
  induction l with
  | nil => simp [lastIndexOf]
  | cons a rest ih =>
      simp only [lastIndexOf, List.mem_cons]
      cases h : lastIndexOf x rest with
      | some i => simp [ih.symm, h]
      | none =>
          have hx : x ∉ rest := (ih).mp h
          by_cases ha : a = x
          · simp [ha, if_pos]
          · simp only [if_neg ha]
            simp only [ne_eq, not_or] at *
            exact ⟨fun _ => ⟨fun hxa => ha hxa.symm, hx⟩, fun _ => trivial⟩

theorem lastIndexOf_append_sep (x : Nat) (enc sig : Bytes) (hsig : x ∉ sig) :
    lastIndexOf x (enc ++ x :: sig) = some enc.length := by
  induction enc with
  | nil =>
      simp [lastIndexOf, (lastIndexOf_eq_none_iff x sig).mpr hsig]
  | cons a rest ih =>
      simp [lastIndexOf, ih]

/-- Lowercase hexadecimal digit character for a value below 16, as emitted in
JSON escape sequences. -/
def hexDigitChar (n : Nat) : Nat :=
  if n < 10 then 48 + n else 87 + n

/-- Value of one hexadecimal digit character (either case), `none` for a
non-hex character. -/
def hexCharVal (c : Nat) : Option Nat :=
  if 48 ≤ c ∧ c ≤ 57 then some (c - 48)
  else if 97 ≤ c ∧ c ≤ 102 then some (c - 87)
  else if 65 ≤ c ∧ c ≤ 70 then some (c - 55)
  else none

theorem hexCharVal_hexDigitChar : ∀ v < 16, hexCharVal (hexDigitChar v) = some v := by decide

/-- JSON escaping of one string byte, as performed by `JSON.stringify`:
quote and backslash are backslash-escaped, control bytes become `\u00XX`
(the model normalizes the shorthand escapes to the `\u00XX` form, which the
parser also accepts), anything else passes through. -/
def escapeByte (b : Nat) : Bytes :=
  if b = 34 then [92, 34]
  else if b = 92 then [92, 92]
  else if b < 32 then [92, 117, 48, 48, hexDigitChar (b / 16), hexDigitChar (b % 16)]
  else [b]

/-- JSON escaping of a whole string body. -/
def escapeBytes : Bytes → Bytes
  | [] => []
  | b :: rest => escapeByte b ++ escapeBytes rest

/-- JSON value of the flat payloads the handlers serialize: strings and
non-negative integers. -/
inductive Jval where
  | str (s : Bytes)
  | num (n : Nat)
deriving DecidableEq

/-- Members of a flat JSON object in source order. -/
abbrev Jmembers := List (Bytes × Jval)

/-- Printed JSON string literal, quotes included. -/
def printJstring (s : Bytes) : Bytes :=
  34 :: (escapeBytes s ++ [34])

/-- Printed decimal numeral of a natural number. -/
def printNat (n : Nat) : Bytes :=
  if n = 0 then [48] else (Nat.digits 10 n).reverse.map (fun d => d + 48)

/-- Printed JSON value. -/
def printJval : Jval → Bytes
  | .str s => printJstring s
  | .num n => printNat n

/-- Printed object members, comma separated, exactly as `JSON.stringify`
emits them (no whitespace). -/
def printMembers : Jmembers → Bytes
  | [] => []
  | [(k, v)] => printJstring k ++ 58 :: printJval v
  | (k, v) :: rest => printJstring k ++ 58 :: (printJval v ++ 44 :: printMembers rest)

/-- Model of `JSON.stringify` on a flat object. -/
def printObj (ms : Jmembers) : Bytes :=
  123 :: (printMembers ms ++ [125])

/-- JSON string-body scanner (input starts after the opening quote); returns
the decoded body and the text after the closing quote. -/
def parseJstringAux : Bytes → Option (Bytes × Bytes)
  | [] => none
  | b :: rest =>
    if b = 34 then some ([], rest)
    else if b = 92 then
      match rest with
      | [] => none
      | e :: rest2 =>
        if e = 34 then (parseJstringAux rest2).map (fun p => (34 :: p.1, p.2))
        else if e = 92 then (parseJstringAux rest2).map (fun p => (92 :: p.1, p.2))
        else if e = 47 then (parseJstringAux rest2).map (fun p => (47 :: p.1, p.2))
        else if e = 98 then (parseJstringAux rest2).map (fun p => (8 :: p.1, p.2))
        else if e = 102 then (parseJstringAux rest2).map (fun p => (12 :: p.1, p.2))
        else if e = 110 then (parseJstringAux rest2).map (fun p => (10 :: p.1, p.2))
        else if e = 114 then (parseJstringAux rest2).map (fun p => (13 :: p.1, p.2))
        else if e = 116 then (parseJstringAux rest2).map (fun p => (9 :: p.1, p.2))
        else if e = 117 then
          match rest2 with
          | h1 :: h2 :: h3 :: h4 :: rest3 =>
            match hexCharVal h1, hexCharVal h2, hexCharVal h3, hexCharVal h4 with
            | some v1, some v2, some v3, some v4 =>
                (parseJstringAux rest3).map
                  (fun p => ((v1 * 4096 + v2 * 256 + v3 * 16 + v4) :: p.1, p.2))
            | _, _, _, _ => none
          | _ => none
        else none
    else (parseJstringAux rest).map (fun p => (b :: p.1, p.2))

/-- Greedy decimal-digit scanner: digit values consumed and the remaining
text. -/
def parseDigits : Bytes → (List Nat × Bytes)
  | [] => ([], [])
  | b :: rest =>
    if 48 ≤ b ∧ b ≤ 57 then
      let p := parseDigits rest
      ((b - 48) :: p.1, p.2)
    else ([], b :: rest)

/-- Value of a most-significant-first digit list. -/
def digitsVal (ds : List Nat) : Nat :=
  ds.foldl (fun a d => a * 10 + d) 0

/-- JSON number scanner for the non-negative integers these payloads
contain. -/
def parseJnum (l : Bytes) : Option (Nat × Bytes) :=
  let p := parseDigits l
  if p.1 = [] then none else some (digitsVal p.1, p.2)

/-- JSON value scanner (string or number). -/
def parseJval (l : Bytes) : Option (Jval × Bytes) :=
  match l with
  | [] => none
  | b :: rest =>
    if b = 34 then (parseJstringAux rest).map (fun p => (Jval.str p.1, p.2))
    else (parseJnum (b :: rest)).map (fun p => (Jval.num p.1, p.2))

/-- Object-member scanner: `key : value` pairs separated by commas, consuming
the closing brace. -/
def parseMembers (fuel : Nat) (l : Bytes) : Option (Jmembers × Bytes) :=
  match fuel with
  | 0 => none
  | fuel + 1 =>
    match l with
    | [] => none
    | b :: rest =>
      if b = 34 then
        match parseJstringAux rest with
        | none => none
        | some (k, r1) =>
          match r1 with
          | [] => none
          | c :: r2 =>
            if c = 58 then
              match parseJval r2 with
              | none => none
              | some (v, r3) =>
                match r3 with
                | [] => none
                | t :: r4 =>
                  if t = 44 then (parseMembers fuel r4).map (fun p => ((k, v) :: p.1, p.2))
                  else if t = 125 then some ([(k, v)], r4)
                  else none
            else none
      else none

/-- Model of `JSON.parse` restricted to the flat-object grammar that
`JSON.stringify` emits for these payloads; any other input is a parse
failure (the handlers' surrounding `try/catch` turns a parse failure into
`null`, which this model expresses as `none`). -/
def jsonParse (l : Bytes) : Option Jmembers :=
  match l with
  | [] => none
  | b :: rest =>
    if b = 123 then
      match rest with
      | [] => none
      | c :: r2 =>
        if c = 125 then (if r2 = [] then some [] else none)
        else
          match parseMembers rest.length rest with
          | some (ms, r2) => if r2 = [] then some ms else none
          | none => none
    else none

/-- Field access `parsed.field` on a parsed JSON object: JavaScript object
semantics keep the last duplicate key. -/
def lookupField (ms : Jmembers) (k : Bytes) : Option Jval :=
  match ms.reverse.find? (fun m => m.1 == k) with
  | some m => some m.2
  | none => none

/-- The string scanner inverts the escaper: scanning an escaped body followed
by the closing quote yields the original bytes. -/
theorem parseJstringAux_escape (s rest : Bytes) :
    parseJstringAux (escapeBytes s ++ 34 :: rest) = some (s, rest) := by
  induction s with
  | nil =>
      show parseJstringAux (34 :: rest) = some ([], rest)
      rw [parseJstringAux.eq_def]
      simp
  | cons b s ih =>
      by_cases h34 : b = 34
      · subst h34
        show parseJstringAux (92 :: 34 :: (escapeBytes s ++ 34 :: rest)) = _
        rw [parseJstringAux.eq_def]
        simp [ih]
      · by_cases h92 : b = 92
        · subst h92
          show parseJstringAux (92 :: 92 :: (escapeBytes s ++ 34 :: rest)) = _
          rw [parseJstringAux.eq_def]
          simp [ih]
        · by_cases h32 : b < 32
          · have hv1 : hexCharVal (hexDigitChar (b / 16)) = some (b / 16) :=
              hexCharVal_hexDigitChar _ (by omega)
            have hv2 : hexCharVal (hexDigitChar (b % 16)) = some (b % 16) :=
              hexCharVal_hexDigitChar _ (by omega)
            have hex48 : hexCharVal 48 = some 0 := rfl
            have hb : b / 16 * 16 + b % 16 = b := by omega
            show parseJstringAux ((escapeByte b ++ escapeBytes s) ++ 34 :: rest) = _
            rw [show escapeByte b =
                [92, 117, 48, 48, hexDigitChar (b / 16), hexDigitChar (b % 16)] by
              simp [escapeByte, h34, h92, h32]]
            rw [parseJstringAux.eq_def]
            simp [hex48, hv1, hv2, ih, hb]
          · show parseJstringAux ((escapeByte b ++ escapeBytes s) ++ 34 :: rest) = _
            rw [show escapeByte b = [b] by simp [escapeByte, h34, h92, h32]]
            rw [parseJstringAux.eq_def]
            simp [h34, h92, ih]

theorem parseDigits_nondigit (c : Nat) (h : ¬(48 ≤ c ∧ c ≤ 57)) (tail : Bytes) :
    parseDigits (c :: tail) = ([], c :: tail) := by
  rw [parseDigits.eq_def]
  simp [h]

theorem parseDigits_append (ds : List Nat) (hds : ∀ d ∈ ds, d < 10) (rest : Bytes)
    (hrest : parseDigits rest = ([], rest)) :
    parseDigits (ds.map (fun d => d + 48) ++ rest) = (ds, rest) := by
  induction ds with
  | nil => simpa using hrest
  | cons d ds ih =>
      have hd : d < 10 := hds d (by simp)
      have hcond : 48 ≤ d + 48 ∧ d + 48 ≤ 57 := by omega
      simp only [List.map_cons, List.cons_append]
      rw [parseDigits.eq_def]
      simp only [if_pos hcond, List.append_eq]
      rw [ih (fun x hx => hds x (by simp [hx]))]
      have he : d + 48 - 48 = d := by omega
      simp [he]

theorem digitsVal_reverse (l : List Nat) :
    digitsVal l.reverse = Nat.ofDigits 10 l := by
  induction l with
  | nil => rfl
  | cons d ds ih =>
      have hrev : (d :: ds).reverse = ds.reverse ++ [d] := by simp
      rw [hrev]
      simp only [digitsVal, List.foldl_append, List.foldl_cons, List.foldl_nil]
      rw [show List.foldl (fun a d => a * 10 + d) 0 ds.reverse = digitsVal ds.reverse from rfl]
      rw [ih, Nat.ofDigits_cons]
      ring

theorem printNat_all_digits (n : Nat) : ∀ x ∈ printNat n, 48 ≤ x ∧ x ≤ 57 := by
  intro x hx
  by_cases h : n = 0
  · subst h
    simp [printNat] at hx
    omega
  · simp only [printNat, if_neg h, List.mem_map, List.mem_reverse] at hx
    obtain ⟨d, hd, rfl⟩ := hx
    have := Nat.digits_lt_base (by norm_num) hd
    omega

theorem printNat_ne_nil (n : Nat) : printNat n ≠ [] := by
  by_cases h : n = 0
  · subst h; simp [printNat]
  · simp only [printNat, if_neg h]
    simp [Nat.digits_ne_nil_iff_ne_zero, h]

theorem parseJnum_printNat (n : Nat) (rest : Bytes)
    (hrest : parseDigits rest = ([], rest)) :
    parseJnum (printNat n ++ rest) = some (n, rest) := by
  by_cases h : n = 0
  · subst h
    have hz : printNat 0 = ([0] : List Nat).map (fun d => d + 48) := rfl
    rw [hz, parseJnum, parseDigits_append [0] (by simp) rest hrest]
    simp [digitsVal]
  · have hmap : printNat n = ((Nat.digits 10 n).reverse).map (fun d => d + 48) := by
      simp [printNat, h]
    have hds : ∀ d ∈ (Nat.digits 10 n).reverse, d < 10 := by
      intro d hd
      exact Nat.digits_lt_base (by norm_num) (List.mem_reverse.mp hd)
    have hne : (Nat.digits 10 n).reverse ≠ [] := by
      simp [Nat.digits_ne_nil_iff_ne_zero, h]
    rw [hmap, parseJnum, parseDigits_append _ hds rest hrest]
    simp only [if_neg hne]
    rw [digitsVal_reverse, Nat.ofDigits_digits]

/-- The value scanner inverts the value printer, provided the following text
does not begin with a digit (true after a printed object member, where the
next byte is a comma or closing brace). -/
theorem parseJval_print (v : Jval) (rest : Bytes)
    (hrest : parseDigits rest = ([], rest)) :
    parseJval (printJval v ++ rest) = some (v, rest) := by
  cases v with
  | str s =>
      show parseJval ((34 :: (escapeBytes s ++ [34])) ++ rest) = _
      rw [List.cons_append, List.append_assoc]
      simp only [parseJval, if_pos rfl, List.cons_append, List.nil_append]
      rw [parseJstringAux_escape]
      rfl
  | num n =>
      obtain ⟨c, cs, hc⟩ : ∃ c cs, printNat n = c :: cs := by
        cases hpn : printNat n with
        | nil => exact absurd hpn (printNat_ne_nil n)
        | cons c cs => exact ⟨c, cs, rfl⟩
      have hcd : 48 ≤ c ∧ c ≤ 57 := printNat_all_digits n c (by rw [hc]; simp)
      have hc34 : ¬ c = 34 := by omega
      show parseJval (printNat n ++ rest) = _
      rw [hc, List.cons_append]
      simp only [parseJval, if_neg hc34]
      rw [← List.cons_append, ← hc, parseJnum_printNat n rest hrest]
      rfl

theorem parseDigits_125 (tail : Bytes) : parseDigits (125 :: tail) = ([], 125 :: tail) :=
  parseDigits_nondigit 125 (by omega) tail

theorem parseDigits_44 (tail : Bytes) : parseDigits (44 :: tail) = ([], 44 :: tail) :=
  parseDigits_nondigit 44 (by omega) tail

/-- The member scanner inverts the member printer when given enough fuel; it
also consumes the closing brace. -/
theorem parseMembers_print (ms : Jmembers) (hne : ms ≠ []) :
    ∀ fuel, ms.length ≤ fuel → ∀ rest,
      parseMembers fuel (printMembers ms ++ 125 :: rest) = some (ms, rest) := by
  induction ms with
  | nil => exact absurd rfl hne
  | cons kv tail ih =>
      intro fuel hfuel rest
      obtain ⟨k, v⟩ := kv
      cases fuel with
      | zero => simp at hfuel
      | succ fuel =>
          cases tail with
          | nil =>
              have hshape : printMembers [(k, v)] ++ 125 :: rest =
                  34 :: (escapeBytes k ++ 34 :: (58 :: (printJval v ++ 125 :: rest))) := by
                simp [printMembers, printJstring]
              rw [hshape, parseMembers]
              simp only [if_pos rfl]
              rw [parseJstringAux_escape]
              simp only [if_pos rfl]
              rw [parseJval_print v (125 :: rest) (parseDigits_125 rest)]
              norm_num
          | cons kv2 tail2 =>
              have hshape : printMembers ((k, v) :: kv2 :: tail2) ++ 125 :: rest =
                  34 :: (escapeBytes k ++ 34 ::
                    (58 :: (printJval v ++ 44 :: (printMembers (kv2 :: tail2) ++ 125 :: rest)))) := by
                simp [printMembers, printJstring]
              rw [hshape, parseMembers]
              simp only [if_pos rfl]
              rw [parseJstringAux_escape]
              simp only [if_pos rfl]
              rw [parseJval_print v _ (parseDigits_44 _)]
              simp only [if_pos rfl]
              rw [ih (by simp) fuel (by simpa using hfuel) rest]
              rfl

theorem printMembers_length_le (ms : Jmembers) : ms.length ≤ (printMembers ms).length := by
  induction ms with
  | nil => simp [printMembers]
  | cons kv tail ih =>
      obtain ⟨k, v⟩ := kv
      cases tail with
      | nil => simp [printMembers, printJstring]
      | cons kv2 tail2 =>
          have h : printMembers ((k, v) :: kv2 :: tail2) =
              printJstring k ++ 58 :: (printJval v ++ 44 :: printMembers (kv2 :: tail2)) := by
            rw [printMembers.eq_def]
          rw [h]
          simp only [List.length_append, List.length_cons, List.length_cons] at ih ⊢
          omega

/-- Round-trip law of the JSON model: parsing a printed flat object returns
exactly its members. -/
theorem jsonParse_printObj (ms : Jmembers) : jsonParse (printObj ms) = some ms := by
  cases ms with
  | nil =>
      show jsonParse (123 :: ([] ++ [125])) = some []
      rw [jsonParse.eq_def]
      simp
  | cons kv tail =>
      obtain ⟨k, v⟩ := kv
      obtain ⟨X, hX⟩ : ∃ X, printMembers ((k, v) :: tail) = 34 :: X := by
        cases tail with
        | nil =>
            exact ⟨escapeBytes k ++ (34 :: 58 :: printJval v),
              by simp [printMembers, printJstring]⟩
        | cons kv2 tail2 =>
            exact ⟨escapeBytes k ++ (34 :: 58 :: (printJval v ++ 44 :: printMembers (kv2 :: tail2))),
              by simp [printMembers, printJstring]⟩
      have hback : (34 : Nat) :: (X ++ [125]) = printMembers ((k, v) :: tail) ++ 125 :: [] := by
        rw [hX]
        simp
      have hfuel : ((k, v) :: tail).length ≤ X.length + 1 + 1 := by
        have h1 := printMembers_length_le ((k, v) :: tail)
        rw [hX] at h1
        simp only [List.length_cons] at *
        omega
      show jsonParse (123 :: (printMembers ((k, v) :: tail) ++ [125])) = _
      rw [hX, List.cons_append, jsonParse.eq_def]
      simp only []
      norm_num
      rw [hback, parseMembers_print ((k, v) :: tail) (by simp) (X.length + 1 + 1) hfuel []]
      simp

/-- Byte lists representing real JavaScript strings (UTF-8 bytes are below
256). -/
abbrev StrBounded (s : Bytes) : Prop := ∀ b ∈ s, b < 256

/-- Boundedness of a JSON value's payload. -/
def JvalBounded : Jval → Prop
  | .str s => StrBounded s
  | .num _ => True

/-- Boundedness of every key and value of a flat object. -/
def MembersBounded (ms : Jmembers) : Prop :=
  ∀ p ∈ ms, StrBounded p.1 ∧ JvalBounded p.2

theorem hexDigitChar_lt_256 (v : Nat) : hexDigitChar v < 256 ∨ 16 ≤ v := by
  by_cases h : v < 16
  · left
    simp only [hexDigitChar]
    split <;> omega
  · right
    omega

theorem escapeByte_bounded (b : Nat) (hb : b < 256) : ∀ x ∈ escapeByte b, x < 256 := by
  intro x hx
  simp only [escapeByte] at hx
  split at hx
  · simp at hx
    omega
  · split at hx
    · simp at hx
      omega
    · split at hx
      · rename_i h32
        simp only [List.mem_cons, List.mem_singleton] at hx
        have h1 : hexDigitChar (b / 16) < 256 := by
          rcases hexDigitChar_lt_256 (b / 16) with h | h
          · exact h
          · omega
        have h2 : hexDigitChar (b % 16) < 256 := by
          rcases hexDigitChar_lt_256 (b % 16) with h | h
          · exact h
          · omega
        rcases hx with h | h | h | h | h | h | h
        · omega
        · omega
        · omega
        · omega
        · subst h
          exact h1
        · subst h
          exact h2
        · simp at h
      · simp at hx
        omega

theorem escapeBytes_bounded (s : Bytes) (hs : StrBounded s) : ∀ x ∈ escapeBytes s, x < 256 := by
  induction s with
  | nil => simp [escapeBytes]
  | cons b rest ih =>
      intro x hx
      simp only [escapeBytes, List.mem_append] at hx
      rcases hx with h | h
      · exact escapeByte_bounded b (hs b (by simp)) x h
      · exact ih (fun y hy => hs y (by simp [hy])) x h

theorem printJstring_bounded (s : Bytes) (hs : StrBounded s) :
    ∀ x ∈ printJstring s, x < 256 := by
  intro x hx
  simp only [printJstring, List.mem_cons, List.mem_append, List.mem_singleton] at hx
  rcases hx with h | h | h | h <;>
    first
      | exact escapeBytes_bounded s hs x h
      | omega
      | simp at h

theorem printNat_bounded (n : Nat) : ∀ x ∈ printNat n, x < 256 := by
  intro x hx
  have := printNat_all_digits n x hx
  omega

theorem printJval_bounded (v : Jval) (hv : JvalBounded v) : ∀ x ∈ printJval v, x < 256 := by
  cases v with
  | str s => exact printJstring_bounded s hv
  | num n => exact printNat_bounded n

theorem printMembers_bounded (ms : Jmembers) (hms : MembersBounded ms) :
    ∀ x ∈ printMembers ms, x < 256 := by
  induction ms with
  | nil => simp [printMembers]
  | cons kv tail ih =>
      obtain ⟨k, v⟩ := kv
      have hk : StrBounded k := (hms (k, v) (by simp)).1
      have hv : JvalBounded v := (hms (k, v) (by simp)).2
      intro x hx
      cases tail with
      | nil =>
          simp only [printMembers, List.mem_append, List.mem_cons] at hx
          rcases hx with h | h | h
          · exact printJstring_bounded k hk x h
          · omega
          · exact printJval_bounded v hv x h
      | cons kv2 tail2 =>
          rw [show printMembers ((k, v) :: kv2 :: tail2) =
              printJstring k ++ 58 :: (printJval v ++ 44 :: printMembers (kv2 :: tail2)) from by
            rw [printMembers.eq_def]] at hx
          simp only [List.mem_append, List.mem_cons] at hx
          rcases hx with h | h | h | h | h
          · exact printJstring_bounded k hk x h
          · omega
          · exact printJval_bounded v hv x h
          · omega
          · exact ih (fun p hp => hms p (by simp [hp])) x h

theorem printObj_bounded (ms : Jmembers) (hms : MembersBounded ms) :
    ∀ x ∈ printObj ms, x < 256 := by
  intro x hx
  simp only [printObj, List.mem_cons, List.mem_append, List.mem_singleton] at hx
  rcases hx with h | h | h | h <;>
    first
      | exact printMembers_bounded ms hms x h
      | omega
      | simp at h

/-- Structural property of a `createHmac("sha256", _).digest("hex")` result:
64 lowercase hexadecimal characters. -/
def IsHexDigest (s : Bytes) : Prop :=
  s.length = 64 ∧ ∀ c ∈ s, (48 ≤ c ∧ c ≤ 57) ∨ (97 ≤ c ∧ c ≤ 102)

/-- Explicit model of the external `createHmac("sha256", secret)` primitive:
secret and message to hex digest bytes. -/
abbrev HmacFun := Bytes → Bytes → Bytes

/-- Translation of `signValue` (part_005 line 116, part_007 line 240). -/
def signValue (hmacHex : HmacFun) (value secret : Bytes) : Bytes :=
  hmacHex secret value

/-- Model of `crypto.timingSafeEqual` on equal-length buffers: equality (the
sources call it only after an explicit length check). -/
def timingSafeEqual (a b : Bytes) : Bool := a == b

theorem IsHexDigest.not_mem_46 {s : Bytes} (h : IsHexDigest s) : 46 ∉ s := by
  intro hmem
  have := h.2 46 hmem
  omega

def nonceKey : Bytes := strBytes "nonce"
def returnToKey : Bytes := strBytes "returnTo"
def issuedAtKey : Bytes := strBytes "issuedAt"
def userSubKey : Bytes := strBytes "userSub"

namespace Tasty

/-- Translation of `createSignedState` (part_007 lines 244-253): payload
`{nonce, returnTo, issuedAt}` (the `randomUUID()` nonce and `Date.now()`
timestamp are explicit arguments), base64url-encoded and HMAC-signed with the
session secret. -/
def createSignedState (hmacHex : HmacFun) (nonce returnTo : Bytes) (issuedAt : Nat)
    (sessionSecret : Bytes) : Bytes :=
  let payload := printObj
    [(nonceKey, Jval.str nonce), (returnToKey, Jval.str returnTo), (issuedAtKey, Jval.num issuedAt)]
  let encodedPayload := toBase64Url payload
  encodedPayload ++ 46 :: signValue hmacHex encodedPayload sessionSecret

/-- Translation of `parseSignedState` (part_007 lines 255-295): splits on the
last dot, recomputes and compares the signature (length check, then
constant-time equality), decodes and JSON-parses the payload, and requires a
non-empty string `returnTo` field; every failure returns `none`. -/
def parseSignedState (hmacHex : HmacFun) (value : Option Bytes) (sessionSecret : Bytes) :
    Option Jmembers :=
  match value with
  | none => none
  | some v =>
    if v = [] then none
    else
      match lastIndexOf 46 v with
      | none => none
      | some sep =>
        let encodedPayload := v.take sep
        let signature := v.drop (sep + 1)
        let expected := signValue hmacHex encodedPayload sessionSecret
        if signature.length ≠ expected.length then none
        else if ¬ timingSafeEqual signature expected then none
        else
          match jsonParse (fromBase64Url encodedPayload) with
          | none => none
          | some parsed =>
            match lookupField parsed returnToKey with
            | some (Jval.str r) => if r = [] then none else some parsed
            | _ => none

end Tasty

namespace Schwab

/-- Translation of `createSignedState` (part_005 lines 120-129): payload
`{nonce, userSub, issuedAt}` signed with the Schwab app secret. -/
def createSignedState (hmacHex : HmacFun) (nonce userSub : Bytes) (issuedAt : Nat)
    (appSecret : Bytes) : Bytes :=
  let payload := printObj
    [(nonceKey, Jval.str nonce), (userSubKey, Jval.str userSub), (issuedAtKey, Jval.num issuedAt)]
  let encodedPayload := toBase64Url payload
  encodedPayload ++ 46 :: signValue hmacHex encodedPayload appSecret

/-- Translation of `parseSignedState` (part_005 lines 131-162): same structure
as the TastyTrade one, requiring a non-empty string `userSub` field. -/
def parseSignedState (hmacHex : HmacFun) (value : Option Bytes) (appSecret : Bytes) :
    Option Jmembers :=
  match value with
  | none => none
  | some v =>
    if v = [] then none
    else
      match lastIndexOf 46 v with
      | none => none
      | some sep =>
        let encodedPayload := v.take sep
        let signature := v.drop (sep + 1)
        let expected := signValue hmacHex encodedPayload appSecret
        if signature.length ≠ expected.length then none
        else if ¬ timingSafeEqual signature expected then none
        else
          match jsonParse (fromBase64Url encodedPayload) with
          | none => none
          | some parsed =>
            match lookupField parsed userSubKey with
            | some (Jval.str u) => if u = [] then none else some parsed
            | _ => none

end Schwab

theorem token_take (enc sig : Bytes) : (enc ++ 46 :: sig).take enc.length = enc :=
  List.take_left enc (46 :: sig)

theorem token_drop (enc sig : Bytes) : (enc ++ 46 :: sig).drop (enc.length + 1) = sig := by
  have h : enc ++ 46 :: sig = (enc ++ [46]) ++ sig := by simp
  have h2 : (enc ++ [46]).length = enc.length + 1 := by simp
  rw [h, ← h2, List.drop_left]

/-- Final payload-shape check of the TastyTrade verifier, factored out for
evaluation lemmas. -/
def tastyFieldCheck (parsedOpt : Option Jmembers) : Option Jmembers :=
  match parsedOpt with
  | none => none
  | some parsed =>
    match lookupField parsed returnToKey with
    | some (Jval.str r) => if r = [] then none else some parsed
    | _ => none

/-- Final payload-shape check of the Schwab verifier. -/
def schwabFieldCheck (parsedOpt : Option Jmembers) : Option Jmembers :=
  match parsedOpt with
  | none => none
  | some parsed =>
    match lookupField parsed userSubKey with
    | some (Jval.str u) => if u = [] then none else some parsed
    | _ => none

/-- Evaluation of the TastyTrade verifier on a token split as payload, dot,
dot-free signature: the remaining checks in source order. -/
theorem tastyParse_eval (hmacHex : HmacFun) (secret enc sig : Bytes) (h46 : 46 ∉ sig) :
    Tasty.parseSignedState hmacHex (some (enc ++ 46 :: sig)) secret =
      (if sig.length ≠ (hmacHex secret enc).length then none
       else if ¬ timingSafeEqual sig (hmacHex secret enc) then none
       else tastyFieldCheck (jsonParse (fromBase64Url enc))) := by
  have hnil : ¬(enc ++ 46 :: sig = []) := by simp
  simp only [Tasty.parseSignedState, if_neg hnil, lastIndexOf_append_sep 46 enc sig h46,
    token_take, token_drop, signValue, tastyFieldCheck]

/-- Evaluation of the Schwab verifier on a token split as payload, dot,
dot-free signature. -/
theorem schwabParse_eval (hmacHex : HmacFun) (secret enc sig : Bytes) (h46 : 46 ∉ sig) :
    Schwab.parseSignedState hmacHex (some (enc ++ 46 :: sig)) secret =
      (if sig.length ≠ (hmacHex secret enc).length then none
       else if ¬ timingSafeEqual sig (hmacHex secret enc) then none
       else schwabFieldCheck (jsonParse (fromBase64Url enc))) := by
  have hnil : ¬(enc ++ 46 :: sig = []) := by simp
  simp only [Schwab.parseSignedState, if_neg hnil, lastIndexOf_append_sep 46 enc sig h46,
    token_take, token_drop, signValue, schwabFieldCheck]

theorem nonceKey_bounded : StrBounded nonceKey := by decide
theorem returnToKey_bounded : StrBounded returnToKey := by decide
theorem issuedAtKey_bounded : StrBounded issuedAtKey := by decide
theorem userSubKey_bounded : StrBounded userSubKey := by decide

/-- Bound on the bytes of the TastyTrade state payload object. -/
theorem tastyPayload_bounded (nonce returnTo : Bytes) (issuedAt : Nat)
    (hn : StrBounded nonce) (hr : StrBounded returnTo) :
    MembersBounded [(nonceKey, Jval.str nonce), (returnToKey, Jval.str returnTo),
      (issuedAtKey, Jval.num issuedAt)] := by
  intro p hp
  simp only [List.mem_cons, List.mem_singleton] at hp
  rcases hp with h | h | h | h
  · subst h; exact ⟨nonceKey_bounded, hn⟩
  · subst h; exact ⟨returnToKey_bounded, hr⟩
  · subst h; exact ⟨issuedAtKey_bounded, trivial⟩
  · simp at h

/-- Bound on the bytes of the Schwab state payload object. -/
theorem schwabPayload_bounded (nonce userSub : Bytes) (issuedAt : Nat)
    (hn : StrBounded nonce) (hu : StrBounded userSub) :
    MembersBounded [(nonceKey, Jval.str nonce), (userSubKey, Jval.str userSub),
      (issuedAtKey, Jval.num issuedAt)] := by
  intro p hp
  simp only [List.mem_cons, List.mem_singleton] at hp
  rcases hp with h | h | h | h
  · subst h; exact ⟨nonceKey_bounded, hn⟩
  · subst h; exact ⟨userSubKey_bounded, hu⟩
  · subst h; exact ⟨issuedAtKey_bounded, trivial⟩
  · simp at h

theorem lookupField_tasty (nonce returnTo : Bytes) (issuedAt : Nat) :
    lookupField [(nonceKey, Jval.str nonce), (returnToKey, Jval.str returnTo),
      (issuedAtKey, Jval.num issuedAt)] returnToKey = some (Jval.str returnTo) := by
  have h1 : (issuedAtKey == returnToKey) = false := by decide
  have h2 : (returnToKey == returnToKey) = true := by decide
  simp [lookupField, List.find?, h1, h2]

theorem lookupField_schwab (nonce userSub : Bytes) (issuedAt : Nat) :
    lookupField [(nonceKey, Jval.str nonce), (userSubKey, Jval.str userSub),
      (issuedAtKey, Jval.num issuedAt)] userSubKey = some (Jval.str userSub) := by
  have h1 : (issuedAtKey == userSubKey) = false := by decide
  have h2 : (userSubKey == userSubKey) = true := by decide
  simp [lookupField, List.find?, h1, h2]

/-- Verifying a token just produced by the TastyTrade signer passes every
structural check and recovers the exact payload; the result is the payload
unless its `returnTo` is empty, in which case the final field check rejects
it. -/
theorem tastyParse_create (hmacHex : HmacFun) (secret nonce returnTo : Bytes) (issuedAt : Nat)
    (hhex : ∀ k m, IsHexDigest (hmacHex k m))
    (hn : StrBounded nonce) (hr : StrBounded returnTo) :
    Tasty.parseSignedState hmacHex
        (some (Tasty.createSignedState hmacHex nonce returnTo issuedAt secret)) secret =
      (if returnTo = [] then none
       else some [(nonceKey, Jval.str nonce), (returnToKey, Jval.str returnTo),
        (issuedAtKey, Jval.num issuedAt)]) := by
  rw [Tasty.createSignedState]
  simp only [signValue]
  rw [tastyParse_eval hmacHex secret _ _ (hhex secret _).not_mem_46]
  rw [if_neg (by simp)]
  rw [if_neg (by simp [timingSafeEqual])]
  rw [fromBase64Url_toBase64Url _
    (printObj_bounded _ (tastyPayload_bounded nonce returnTo issuedAt hn hr))]
  rw [jsonParse_printObj]
  simp only [tastyFieldCheck]
  rw [lookupField_tasty]

/-- Verifying a token just produced by the Schwab signer passes every
structural check and recovers the exact payload; the result is the payload
unless its `userSub` is empty. -/
theorem schwabParse_create (hmacHex : HmacFun) (secret nonce userSub : Bytes) (issuedAt : Nat)
    (hhex : ∀ k m, IsHexDigest (hmacHex k m))
    (hn : StrBounded nonce) (hu : StrBounded userSub) :
    Schwab.parseSignedState hmacHex
        (some (Schwab.createSignedState hmacHex nonce userSub issuedAt secret)) secret =
      (if userSub = [] then none
       else some [(nonceKey, Jval.str nonce), (userSubKey, Jval.str userSub),
        (issuedAtKey, Jval.num issuedAt)]) := by
  rw [Schwab.createSignedState]
  simp only [signValue]
  rw [schwabParse_eval hmacHex secret _ _ (hhex secret _).not_mem_46]
  rw [if_neg (by simp)]
  rw [if_neg (by simp [timingSafeEqual])]
  rw [fromBase64Url_toBase64Url _
    (printObj_bounded _ (schwabPayload_bounded nonce userSub issuedAt hn hu))]
  rw [jsonParse_printObj]
  simp only [schwabFieldCheck]
  rw [lookupField_schwab]

/-- Stored token record (part_005 lines 11-15, part_007 lines 13-17). The
`expiresAt` ISO string is modelled by the millisecond timestamp `new Date`
parses it to; `none` models a string `new Date` cannot parse (NaN). -/
structure TokenRecord where
  accessToken : Bytes
  refreshToken : Bytes
  expiresAt : Option Int
deriving DecidableEq

/-- The SSM parameter store, restricted to the token parameters: a map from
parameter name to the stored record (SecureString encryption and the
JSON.stringify/parse of the record on the wire are identities for this
model). -/
def Store := Bytes → Option TokenRecord

/-- Model of `PutParameterCommand` with `Overwrite: true`. -/
def putParam (store : Store) (name : Bytes) (rec : TokenRecord) : Store :=
  fun n => if n = name then some rec else store n

/-- Translation of `getUserScopedParameterName` (shared/user-auth.ts line 57):
the fixed provider parameter name, a slash (47), and the verified subject. -/
def getUserScopedParameterName (p userSub : Bytes) : Bytes :=
  p ++ 47 :: userSub

/-- JavaScript truthiness of an optional string (absent and empty are
falsy). -/
def jsTruthyStr (o : Option Bytes) : Bool :=
  match o with
  | none => false
  | some s => !(s == [])

/-- JavaScript truthiness of an optional number (absent and zero are
falsy). -/
def jsTruthyNum (o : Option Nat) : Bool :=
  match o with
  | none => false
  | some n => !(n == 0)

/-- Translation of `isExpired` (part_005 line 297, part_007 line 486): an
unparsable date, or an expiry not more than 60 seconds away, counts as
expired. -/
def isExpired (expiresAt : Option Int) (now : Int) : Bool :=
  match expiresAt with
  | none => true
  | some expirationMs => decide (expirationMs - 60 * 1000 ≤ now)

/-- Connection-status record `{connected, reason?, detail?}` of both
handlers. -/
structure ConnectionStatus where
  connected : Bool
  reason : Option Bytes
  detail : Option Bytes
deriving DecidableEq

/-- Model of `String.prototype.includes`. -/
def includes (hay needle : Bytes) : Bool :=
  decide (needle <:+: hay)

/-- Whitespace bytes trimmed by `String.prototype.trim` (ASCII portion). -/
def isJsSpace (b : Nat) : Bool :=
  b == 32 || b == 9 || b == 10 || b == 13 || b == 12 || b == 11

/-- Model of `String.prototype.trim`. -/
def jsTrim (l : Bytes) : Bytes :=
  ((l.dropWhile isJsSpace).reverse.dropWhile isJsSpace).reverse

namespace Schwab

/-- Decoded JSON body and transport success of one Schwab token-endpoint
response (part_005 lines 251-256). -/
structure SchwabTokenResponse where
  ok : Bool
  error : Option Bytes
  access_token : Option Bytes
  refresh_token : Option Bytes
  expires_in : Option Nat
deriving DecidableEq

/-- Translation of the validation in `requestToken` (part_005 lines 258-260):
non-success, or a falsy access token or expiry, throws the payload's error
message (or the fixed fallback). -/
def requestToken (resp : SchwabTokenResponse) : Except Bytes SchwabTokenResponse :=
  if ¬ resp.ok ∨ ¬ jsTruthyStr resp.access_token ∨ ¬ jsTruthyNum resp.expires_in then
    Except.error (resp.error.getD (strBytes "Schwab token request failed."))
  else Except.ok resp

/-- Translation of `buildTokenRecord` (part_005 lines 223-236): the new
record keeps the response's refresh token, else the existing one, else the
empty string; expiry is absolute (`Date.now() + expires_in * 1000`). -/
def buildTokenRecord (access_token : Bytes) (refresh_token : Option Bytes)
    (expires_in : Nat) (existingRefreshToken : Option Bytes) (now : Int) : TokenRecord :=
  { accessToken := access_token
    refreshToken := refresh_token.getD (existingRefreshToken.getD [])
    expiresAt := some (now + expires_in * 1000) }

/-- Translation of `saveTokens` (part_005 lines 181-191): writes under the
user-scoped parameter name. -/
def saveTokens (store : Store) (tokenParameterName : Bytes) (tokens : TokenRecord)
    (userSub : Bytes) : Store :=
  putParam store (getUserScopedParameterName tokenParameterName userSub) tokens

/-- Translation of `getStoredTokens` (part_005 lines 193-221): reads the
user-scoped parameter; a missing parameter is `none`. -/
def getStoredTokens (store : Store) (tokenParameterName userSub : Bytes) : Option TokenRecord :=
  store (getUserScopedParameterName tokenParameterName userSub)

/-- Translation of `exchangeAuthorizationCode` (part_005 lines 269-284):
validates the response, builds a record with no prior refresh token, fails
before any save when the record has no refresh token. -/
def exchangeAuthorizationCode (resp : SchwabTokenResponse) (userSub : Bytes) (now : Int)
    (tokenParameterName : Bytes) (store : Store) : Except Bytes TokenRecord × Store :=
  match requestToken resp with
  | .error m => (.error m, store)
  | .ok p =>
    let tokens := buildTokenRecord (p.access_token.getD []) p.refresh_token
      (p.expires_in.getD 0) none now
    if tokens.refreshToken = [] then
      (.error (strBytes "Token exchange succeeded but no refresh token was returned."), store)
    else (.ok tokens, saveTokens store tokenParameterName tokens userSub)

/-- Translation of `refreshAccessToken` (part_005 lines 286-295): validates,
carries the stored refresh token forward, and persists. -/
def refreshAccessToken (tokens : TokenRecord) (resp : SchwabTokenResponse) (userSub : Bytes)
    (now : Int) (tokenParameterName : Bytes) (store : Store) : Except Bytes TokenRecord × Store :=
  match requestToken resp with
  | .error m => (.error m, store)
  | .ok p =>
    let refreshedTokens := buildTokenRecord (p.access_token.getD []) p.refresh_token
      (p.expires_in.getD 0) (some tokens.refreshToken) now
    (.ok refreshedTokens, saveTokens store tokenParameterName refreshedTokens userSub)

/-- Translation of `getValidAccessToken` (part_005 lines 303-315). The
provider's reply to a potential refresh call is the explicit argument
`refreshResp`; the returned flag records whether that refresh call was made. -/
def getValidAccessToken (store : Store) (tokenParameterName userSub : Bytes) (now : Int)
    (refreshResp : SchwabTokenResponse) : Except Bytes (Option Bytes) × Store × Bool :=
  match getStoredTokens store tokenParameterName userSub with
  | none => (.ok none, store, false)
  | some storedTokens =>
    if storedTokens.accessToken = [] ∨ storedTokens.refreshToken = [] then
      (.ok none, store, false)
    else if ¬ isExpired storedTokens.expiresAt now then
      (.ok (some storedTokens.accessToken), store, false)
    else
      match refreshAccessToken storedTokens refreshResp userSub now tokenParameterName store with
      | (.error m, store2) => (.error m, store2, true)
      | (.ok refreshedTokens, store2) => (.ok (some refreshedTokens.accessToken), store2, true)

/-- Translation of `getConnectionStatus` (part_005 lines 317-328) over the
outcome of `getValidAccessToken`: every outcome maps to a status record, an
exception maps to `unexpected_error`. -/
def getConnectionStatus (outcome : Except Bytes (Option Bytes)) : ConnectionStatus :=
  match outcome with
  | .ok accessToken => { connected := jsTruthyStr accessToken, reason := none, detail := none }
  | .error message =>
    { connected := false
      reason := some (strBytes "unexpected_error")
      detail := some message }

/-- Translation of the state handling of the `/schwab/callback` branch
(part_005 lines 375-393); the final flag records whether the
authorization-code exchange was attempted. -/
inductive CallbackResult where
  | missingCodeOrState
  | connected
  | serverError (msg : Bytes)
deriving DecidableEq

/-- The `/schwab/callback` branch: parses the state, rejects a missing code or
invalid state with the 400 page before any exchange, otherwise exchanges the
code for the state's `userSub` (the provider reply is the argument `resp`). -/
def callbackHandler (hmacHex : HmacFun) (code stateParam : Option Bytes) (appSecret : Bytes)
    (resp : SchwabTokenResponse) (now : Int) (tokenParameterName : Bytes) (store : Store) :
    CallbackResult × Store × Bool :=
  match parseSignedState hmacHex stateParam appSecret with
  | none => (.missingCodeOrState, store, false)
  | some st =>
    if ¬ jsTruthyStr code then (.missingCodeOrState, store, false)
    else
      let userSub := match lookupField st userSubKey with
        | some (Jval.str u) => u
        | _ => []
      match exchangeAuthorizationCode resp userSub now tokenParameterName store with
      | (.error m, store1) => (.serverError m, store1, true)
      | (.ok _, store1) => (.connected, store1, true)

end Schwab

/-- Externally observable calls of the `/schwab/market-info` branch, in
order: market-data requests and token-refresh requests. -/
inductive MIAction where
  | dataCall
  | refreshCall
deriving DecidableEq

/-- Transport outcome of one `getLevelOneEquities` call (part_005 lines
330-349): the response's success flag and status. -/
structure MDResp where
  ok : Bool
  status : Nat
deriving DecidableEq

/-- Responses of the `/schwab/market-info` branch. -/
inductive MIResult where
  | symbolRequired
  | notConnected
  | authExpired
  | upstreamError (status : Nat)
  | success
  | serverError (msg : Bytes)
deriving DecidableEq

namespace Schwab

/-- Translation of the `/schwab/market-info` branch (part_005 lines 400-439)
plus the handler's surrounding try/catch: validates the symbol, obtains a
valid token (possibly refreshing), performs the data call (`md1`); on a 401 it
re-reads the stored tokens, refreshes once (`refreshResp2`) and retries once
(`md2`); any remaining failure is returned as is. The trace lists the
market-data and refresh calls performed, in order. -/
def marketInfoHandler (symbol : Option Bytes) (store : Store)
    (tokenParameterName userSub : Bytes) (now : Int)
    (refreshResp1 refreshResp2 : SchwabTokenResponse) (md1 md2 : MDResp) :
    MIResult × Store × List MIAction :=
  match symbol with
  | none => (.symbolRequired, store, [])
  | some s0 =>
    if jsTrim s0 = [] then (.symbolRequired, store, [])
    else
      match getValidAccessToken store tokenParameterName userSub now refreshResp1 with
      | (.error m, store1, r1) =>
          (.serverError m, store1, if r1 then [.refreshCall] else [])
      | (.ok none, store1, r1) =>
          (.notConnected, store1, if r1 then [.refreshCall] else [])
      | (.ok (some _), store1, r1) =>
          let trace1 := (if r1 then [MIAction.refreshCall] else []) ++ [MIAction.dataCall]
          if md1.status = 401 then
            match getStoredTokens store1 tokenParameterName userSub with
            | none => (.authExpired, store1, trace1)
            | some storedTokens =>
              match refreshAccessToken storedTokens refreshResp2 userSub now
                  tokenParameterName store1 with
              | (.error m, store2) => (.serverError m, store2, trace1 ++ [.refreshCall])
              | (.ok _, store2) =>
                  let trace2 := trace1 ++ [MIAction.refreshCall, MIAction.dataCall]
                  if ¬ md2.ok then (.upstreamError md2.status, store2, trace2)
                  else (.success, store2, trace2)
          else
            if ¬ md1.ok then (.upstreamError md1.status, store1, trace1)
            else (.success, store1, trace1)

end Schwab

namespace Tasty

/-- Extracted token payload and response metadata of one TastyTrade
token-endpoint reply (part_007 lines 394-454, after `extractTokenPayload`):
HTTP status, content type, the stringified payload used in error messages,
and the extracted token fields. -/
structure TastyTokenResponse where
  status : Nat
  contentType : Bytes
  payloadMessage : Bytes
  access_token : Option Bytes
  refresh_token : Option Bytes
  expires_in : Option Nat
deriving DecidableEq

/-- The error message thrown by the TastyTrade `requestToken` on a failed or
malformed token response (part_007 lines 448-450). -/
def tastyTokenErrMsg (status : Nat) (contentType payloadMessage : Bytes) : Bytes :=
  strBytes "Tasty token request failed (status " ++ printNat status ++
  strBytes ", content-type " ++ contentType ++ strBytes "): " ++ payloadMessage

/-- Translation of the validation in `requestToken` (part_007 lines 442-453):
a non-2xx status or falsy access token or expiry throws the composed error
message. -/
def requestToken (resp : TastyTokenResponse) : Except Bytes TastyTokenResponse :=
  if resp.status < 200 ∨ 300 ≤ resp.status ∨ ¬ jsTruthyStr resp.access_token ∨
      ¬ jsTruthyNum resp.expires_in then
    Except.error (tastyTokenErrMsg resp.status resp.contentType resp.payloadMessage)
  else Except.ok resp

/-- Translation of `buildTokenRecord` (part_007 lines 339-349): throws when
access token or expiry are falsy; otherwise keeps the response's refresh
token, else the existing one, else the empty string. -/
def buildTokenRecord (tokenPayload : TastyTokenResponse)
    (existingRefreshToken : Option Bytes) (now : Int) : Except Bytes TokenRecord :=
  if ¬ jsTruthyStr tokenPayload.access_token ∨ ¬ jsTruthyNum tokenPayload.expires_in then
    Except.error (strBytes "Tasty token response did not include access_token/expires_in.")
  else
    Except.ok
      { accessToken := tokenPayload.access_token.getD []
        refreshToken := tokenPayload.refresh_token.getD (existingRefreshToken.getD [])
        expiresAt := some (now + (tokenPayload.expires_in.getD 0) * 1000) }

/-- Translation of `saveTokens` (part_007 lines 351-361): writes under the
fixed parameter name `TASTY_TOKEN_PARAMETER_NAME` — no user scoping. -/
def saveTokens (store : Store) (tokenParameterName : Bytes) (tokens : TokenRecord) : Store :=
  putParam store tokenParameterName tokens

/-- Translation of `getStoredTokens` (part_007 lines 363-392): reads the same
fixed parameter name. -/
def getStoredTokens (store : Store) (tokenParameterName : Bytes) : Option TokenRecord :=
  store tokenParameterName

/-- Translation of `exchangeCodeForTokens` (part_007 lines 456-472). -/
def exchangeCodeForTokens (resp : TastyTokenResponse) (now : Int)
    (tokenParameterName : Bytes) (store : Store) : Except Bytes TokenRecord × Store :=
  match requestToken resp with
  | .error m => (.error m, store)
  | .ok p =>
    match buildTokenRecord p none now with
    | .error m => (.error m, store)
    | .ok tokens =>
      if tokens.refreshToken = [] then
        (.error (strBytes "Token exchange succeeded but no refresh token was returned."), store)
      else (.ok tokens, saveTokens store tokenParameterName tokens)

/-- Translation of `refreshAccessToken` (part_007 lines 474-484). -/
def refreshAccessToken (tokens : TokenRecord) (resp : TastyTokenResponse) (now : Int)
    (tokenParameterName : Bytes) (store : Store) : Except Bytes TokenRecord × Store :=
  match requestToken resp with
  | .error m => (.error m, store)
  | .ok p =>
    match buildTokenRecord p (some tokens.refreshToken) now with
    | .error m => (.error m, store)
    | .ok refreshedTokens => (.ok refreshedTokens, saveTokens store tokenParameterName refreshedTokens)

/-- Translation of `getValidAccessToken` (part_007 lines 492-504): requires a
stored refresh token; returns the cached access token when present and fresh;
otherwise refreshes. -/
def getValidAccessToken (store : Store) (tokenParameterName : Bytes) (now : Int)
    (refreshResp : TastyTokenResponse) : Except Bytes (Option Bytes) × Store × Bool :=
  match getStoredTokens store tokenParameterName with
  | none => (.ok none, store, false)
  | some storedTokens =>
    if storedTokens.refreshToken = [] then (.ok none, store, false)
    else if storedTokens.accessToken ≠ [] ∧ ¬ isExpired storedTokens.expiresAt now then
      (.ok (some storedTokens.accessToken), store, false)
    else
      match refreshAccessToken storedTokens refreshResp now tokenParameterName store with
      | (.error m, store2) => (.error m, store2, true)
      | (.ok refreshedTokens, store2) => (.ok (some refreshedTokens.accessToken), store2, true)

def msgClientId : Bytes :=
  strBytes "Missing SSM parameter: /amplify/tasty/credentials/client-id"
def msgClientSecret : Bytes :=
  strBytes "Missing SSM parameter: /amplify/tasty/credentials/client-secret"
def msgSessionSecret : Bytes :=
  strBytes "Missing SSM parameter: /amplify/tasty/credentials/session-secret"
def msgStatus401 : Bytes := strBytes "status 401"

/-- Translation of `getConnectionStatus` (part_007 lines 506-531) over the
outcome of `getValidAccessToken`: a thrown message is classified by substring
into a stable reason code; nothing is re-thrown. -/
def getConnectionStatus (outcome : Except Bytes (Option Bytes)) : ConnectionStatus :=
  match outcome with
  | .ok accessToken => { connected := jsTruthyStr accessToken, reason := none, detail := none }
  | .error message =>
    if includes message msgClientId then
      { connected := false, reason := some (strBytes "missing_client_id"),
        detail := some message }
    else if includes message msgClientSecret then
      { connected := false, reason := some (strBytes "missing_client_secret"),
        detail := some message }
    else if includes message msgSessionSecret then
      { connected := false, reason := some (strBytes "missing_session_secret"),
        detail := some message }
    else if includes message msgStatus401 then
      { connected := false, reason := some (strBytes "invalid_client_or_refresh_token"),
        detail := some message }
    else
      { connected := false, reason := some (strBytes "unexpected_error"),
        detail := some message }

/-- The `state` query parameter produced by `createAuthorizeResponse`
(part_007 lines 297-318): the `return_to` query value, defaulted to the empty
string, is signed. -/
def authorizeStateParam (hmacHex : HmacFun) (queryReturnTo : Option Bytes) (nonce : Bytes)
    (issuedAt : Nat) (sessionSecret : Bytes) : Bytes :=
  createSignedState hmacHex nonce (queryReturnTo.getD []) issuedAt sessionSecret

/-- Responses of the `/tasty/callback` branch. -/
inductive TastyCallbackResult where
  | redirectError (location : Bytes)
  | redirectSuccess (location : Bytes)
  | serverError (msg : Bytes)
deriving DecidableEq

def defaultPopupPath : Bytes := strBytes "/tasty-auth-popup"

def oauthErrorSuffix : Bytes := strBytes "?oauth=error&message=State%20validation%20failed."

def oauthSuccessSuffix : Bytes := strBytes "?oauth=success"

/-- Translation of the `/tasty/callback` branch (part_007 lines 648-673) plus
the handler's try/catch: a missing code or unverifiable state redirects with
the error message before any exchange; otherwise the code is exchanged and
the browser is redirected to the state's `returnTo`. The flag records whether
the code exchange was attempted. -/
def callbackHandler (hmacHex : HmacFun) (code stateParam : Option Bytes)
    (sessionSecret : Bytes) (resp : TastyTokenResponse) (now : Int)
    (tokenParameterName : Bytes) (store : Store) : TastyCallbackResult × Store × Bool :=
  let parsedState := parseSignedState hmacHex stateParam sessionSecret
  let returnTo :=
    match parsedState with
    | some ms =>
      match lookupField ms returnToKey with
      | some (Jval.str r) => if r = [] then defaultPopupPath else r
      | _ => defaultPopupPath
    | none => defaultPopupPath
  if ¬ jsTruthyStr code ∨ parsedState = none then
    (.redirectError (returnTo ++ oauthErrorSuffix), store, false)
  else
    match exchangeCodeForTokens resp now tokenParameterName store with
    | (.error m, store1) => (.serverError m, store1, true)
    | (.ok _, store1) => (.redirectSuccess (returnTo ++ oauthSuccessSuffix), store1, true)

end Tasty

/-- C2: for every valid (subject, returnTo) pair — non-empty, as real
verified subjects and return targets are — verifying the state token produced
by the corresponding signer under the same session secret succeeds and yields
exactly the signed payload, whose `returnTo` (TastyTrade) and `userSub`
(Schwab) fields equal the inputs (round-trip law of the State Signer). -/
theorem claim_C2_sign_verify_roundtrip (hmacHex : HmacFun)
    (hhex : ∀ k m, IsHexDigest (hmacHex k m))
    (secret nonce subject returnTo : Bytes) (issuedAt : Nat)
    (hn : StrBounded nonce) (hs : StrBounded subject) (hr : StrBounded returnTo)
    (hsne : subject ≠ []) (hrne : returnTo ≠ []) :
    (Tasty.parseSignedState hmacHex
        (some (Tasty.createSignedState hmacHex nonce returnTo issuedAt secret)) secret =
      some [(nonceKey, Jval.str nonce), (returnToKey, Jval.str returnTo),
        (issuedAtKey, Jval.num issuedAt)]) ∧
    (Schwab.parseSignedState hmacHex
        (some (Schwab.createSignedState hmacHex nonce subject issuedAt secret)) secret =
      some [(nonceKey, Jval.str nonce), (userSubKey, Jval.str subject),
        (issuedAtKey, Jval.num issuedAt)]) := by
  constructor
  · rw [tastyParse_create hmacHex secret nonce returnTo issuedAt hhex hn hr]
    simp [hrne]
  · rw [schwabParse_create hmacHex secret nonce subject issuedAt hhex hn hs]
    simp [hsne]

theorem claim_C2_sign_verify_roundtrip_witness :
    (Tasty.parseSignedState (fun _ _ => List.replicate 64 48)
        (some (Tasty.createSignedState (fun _ _ => List.replicate 64 48)
          (strBytes "n-1") (strBytes "/tasty-auth-popup") 1700000000000 (strBytes "sek")))
        (strBytes "sek") =
      some [(nonceKey, Jval.str (strBytes "n-1")),
        (returnToKey, Jval.str (strBytes "/tasty-auth-popup")),
        (issuedAtKey, Jval.num 1700000000000)]) ∧
    (Schwab.parseSignedState (fun _ _ => List.replicate 64 48)
        (some (Schwab.createSignedState (fun _ _ => List.replicate 64 48)
          (strBytes "n-1") (strBytes "subA") 1700000000000 (strBytes "sek")))
        (strBytes "sek") =
      some [(nonceKey, Jval.str (strBytes "n-1")),
        (userSubKey, Jval.str (strBytes "subA")),
        (issuedAtKey, Jval.num 1700000000000)]) :=
  claim_C2_sign_verify_roundtrip (fun _ _ => List.replicate 64 48)
    (fun _ _ => ⟨by simp, fun c hc => by rw [List.eq_of_mem_replicate hc]; omega⟩)
    (strBytes "sek") (strBytes "n-1") (strBytes "subA") (strBytes "/tasty-auth-popup")
    1700000000000 (by decide) (by decide) (by decide) (by decide) (by decide)


theorem tastyParse_missing (hm : HmacFun) (s : Bytes) :
    Tasty.parseSignedState hm none s = none := rfl

theorem tastyParse_empty (hm : HmacFun) (s : Bytes) :
    Tasty.parseSignedState hm (some []) s = none := by
  simp [Tasty.parseSignedState]

theorem tastyParse_noSep (hm : HmacFun) (s v : Bytes) (h46 : 46 ∉ v) :
    Tasty.parseSignedState hm (some v) s = none := by
  rcases eq_or_ne v [] with hv | hv
  · subst hv
    simp [Tasty.parseSignedState]
  · simp [Tasty.parseSignedState, hv, (lastIndexOf_eq_none_iff 46 v).mpr h46]

theorem tastyParse_lenMismatch (hm : HmacFun) (s enc sig : Bytes) (h46 : 46 ∉ sig)
    (hlen : sig.length ≠ (hm s enc).length) :
    Tasty.parseSignedState hm (some (enc ++ 46 :: sig)) s = none := by
  rw [tastyParse_eval hm s enc sig h46, if_pos hlen]

theorem tastyParse_sigMismatch (hm : HmacFun) (s enc sig : Bytes) (h46 : 46 ∉ sig)
    (hne : sig ≠ hm s enc) :
    Tasty.parseSignedState hm (some (enc ++ 46 :: sig)) s = none := by
  rw [tastyParse_eval hm s enc sig h46]
  by_cases hlen : sig.length ≠ (hm s enc).length
  · rw [if_pos hlen]
  · rw [if_neg hlen, if_pos (by simp [timingSafeEqual, hne])]

theorem tastyParse_alteredSig (hm : HmacFun) (hhex : ∀ k m, IsHexDigest (hm k m))
    (s enc : Bytes) (i c : Nat) (hi : i < (hm s enc).length) (hc : c ≠ (hm s enc)[i]) :
    Tasty.parseSignedState hm (some (enc ++ 46 :: (hm s enc).set i c)) s = none := by
  have hdig := hhex s enc
  by_cases h46c : c = 46
  · subst h46c
    have hset : (hm s enc).set i 46 =
        (hm s enc).take i ++ 46 :: (hm s enc).drop (i + 1) := by
      rw [List.set_eq_take_append_cons_drop, if_pos hi]
    have hassoc : enc ++ 46 :: ((hm s enc).take i ++ 46 :: (hm s enc).drop (i + 1)) =
        (enc ++ 46 :: (hm s enc).take i) ++ 46 :: (hm s enc).drop (i + 1) := by
      simp
    rw [hset, hassoc]
    apply tastyParse_lenMismatch
    · intro hx
      exact hdig.not_mem_46 (List.drop_subset _ _ hx)
    · have h1 : (hm s enc).length = 64 := hdig.1
      have h2 := (hhex s (enc ++ 46 :: (hm s enc).take i)).1
      rw [h2, List.length_drop, h1]
      omega
  · have h46' : 46 ∉ (hm s enc).set i c := by
      intro hx
      rw [List.set_eq_take_append_cons_drop, if_pos hi] at hx
      simp only [List.mem_append, List.mem_cons] at hx
      rcases hx with h | h | h
      · exact hdig.not_mem_46 (List.take_subset _ _ h)
      · exact h46c h.symm
      · exact hdig.not_mem_46 (List.drop_subset _ _ h)
    apply tastyParse_sigMismatch hm s enc _ h46'
    intro heq
    apply hc
    have h1 : ((hm s enc).set i c)[i]? = some c := List.getElem?_set_self hi
    rw [heq, List.getElem?_eq_getElem hi] at h1
    exact (Option.some.inj h1).symm

theorem tastyParse_badPayload (hm : HmacFun) (hhex : ∀ k m, IsHexDigest (hm k m))
    (s enc : Bytes) (hjson : jsonParse (fromBase64Url enc) = none) :
    Tasty.parseSignedState hm (some (enc ++ 46 :: hm s enc)) s = none := by
  rw [tastyParse_eval hm s enc _ (hhex s enc).not_mem_46, if_neg (by simp),
    if_neg (by simp [timingSafeEqual]), hjson]
  rfl

theorem tastyParse_badShape (hm : HmacFun) (hhex : ∀ k m, IsHexDigest (hm k m))
    (s enc : Bytes) (ms : Jmembers) (hjson : jsonParse (fromBase64Url enc) = some ms)
    (hshape : ∀ r, lookupField ms returnToKey = some (Jval.str r) → r = []) :
    Tasty.parseSignedState hm (some (enc ++ 46 :: hm s enc)) s = none := by
  rw [tastyParse_eval hm s enc _ (hhex s enc).not_mem_46, if_neg (by simp),
    if_neg (by simp [timingSafeEqual]), hjson]
  simp only [tastyFieldCheck]
  cases hlf : lookupField ms returnToKey with
  | none => rfl
  | some jv =>
      cases jv with
      | str r =>
          show (if r = [] then none else some ms) = none
          rw [if_pos (hshape r hlf)]
      | num n => rfl

theorem schwabParse_missing (hm : HmacFun) (s : Bytes) :
    Schwab.parseSignedState hm none s = none := rfl

theorem schwabParse_empty (hm : HmacFun) (s : Bytes) :
    Schwab.parseSignedState hm (some []) s = none := by
  simp [Schwab.parseSignedState]

theorem schwabParse_noSep (hm : HmacFun) (s v : Bytes) (h46 : 46 ∉ v) :
    Schwab.parseSignedState hm (some v) s = none := by
  rcases eq_or_ne v [] with hv | hv
  · subst hv
    simp [Schwab.parseSignedState]
  · simp [Schwab.parseSignedState, hv, (lastIndexOf_eq_none_iff 46 v).mpr h46]

theorem schwabParse_lenMismatch (hm : HmacFun) (s enc sig : Bytes) (h46 : 46 ∉ sig)
    (hlen : sig.length ≠ (hm s enc).length) :
    Schwab.parseSignedState hm (some (enc ++ 46 :: sig)) s = none := by
  rw [schwabParse_eval hm s enc sig h46, if_pos hlen]

theorem schwabParse_sigMismatch (hm : HmacFun) (s enc sig : Bytes) (h46 : 46 ∉ sig)
    (hne : sig ≠ hm s enc) :
    Schwab.parseSignedState hm (some (enc ++ 46 :: sig)) s = none := by
  rw [schwabParse_eval hm s enc sig h46]
  by_cases hlen : sig.length ≠ (hm s enc).length
  · rw [if_pos hlen]
  · rw [if_neg hlen, if_pos (by simp [timingSafeEqual, hne])]

theorem schwabParse_alteredSig (hm : HmacFun) (hhex : ∀ k m, IsHexDigest (hm k m))
    (s enc : Bytes) (i c : Nat) (hi : i < (hm s enc).length) (hc : c ≠ (hm s enc)[i]) :
    Schwab.parseSignedState hm (some (enc ++ 46 :: (hm s enc).set i c)) s = none := by
  have hdig := hhex s enc
  by_cases h46c : c = 46
  · subst h46c
    have hset : (hm s enc).set i 46 =
        (hm s enc).take i ++ 46 :: (hm s enc).drop (i + 1) := by
      rw [List.set_eq_take_append_cons_drop, if_pos hi]
    have hassoc : enc ++ 46 :: ((hm s enc).take i ++ 46 :: (hm s enc).drop (i + 1)) =
        (enc ++ 46 :: (hm s enc).take i) ++ 46 :: (hm s enc).drop (i + 1) := by
      simp
    rw [hset, hassoc]
    apply schwabParse_lenMismatch
    · intro hx
      exact hdig.not_mem_46 (List.drop_subset _ _ hx)
    · have h1 : (hm s enc).length = 64 := hdig.1
      have h2 := (hhex s (enc ++ 46 :: (hm s enc).take i)).1
      rw [h2, List.length_drop, h1]
      omega
  · have h46' : 46 ∉ (hm s enc).set i c := by
      intro hx
      rw [List.set_eq_take_append_cons_drop, if_pos hi] at hx
      simp only [List.mem_append, List.mem_cons] at hx
      rcases hx with h | h | h
      · exact hdig.not_mem_46 (List.take_subset _ _ h)
      · exact h46c h.symm
      · exact hdig.not_mem_46 (List.drop_subset _ _ h)
    apply schwabParse_sigMismatch hm s enc _ h46'
    intro heq
    apply hc
    have h1 : ((hm s enc).set i c)[i]? = some c := List.getElem?_set_self hi
    rw [heq, List.getElem?_eq_getElem hi] at h1
    exact (Option.some.inj h1).symm

theorem schwabParse_badPayload (hm : HmacFun) (hhex : ∀ k m, IsHexDigest (hm k m))
    (s enc : Bytes) (hjson : jsonParse (fromBase64Url enc) = none) :
    Schwab.parseSignedState hm (some (enc ++ 46 :: hm s enc)) s = none := by
  rw [schwabParse_eval hm s enc _ (hhex s enc).not_mem_46, if_neg (by simp),
    if_neg (by simp [timingSafeEqual]), hjson]
  rfl

theorem schwabParse_badShape (hm : HmacFun) (hhex : ∀ k m, IsHexDigest (hm k m))
    (s enc : Bytes) (ms : Jmembers) (hjson : jsonParse (fromBase64Url enc) = some ms)
    (hshape : ∀ u, lookupField ms userSubKey = some (Jval.str u) → u = []) :
    Schwab.parseSignedState hm (some (enc ++ 46 :: hm s enc)) s = none := by
  rw [schwabParse_eval hm s enc _ (hhex s enc).not_mem_46, if_neg (by simp),
    if_neg (by simp [timingSafeEqual]), hjson]
  simp only [schwabFieldCheck]
  cases hlf : lookupField ms userSubKey with
  | none => rfl
  | some jv =>
      cases jv with
      | str u =>
          show (if u = [] then none else some ms) = none
          rw [if_pos (hshape u hlf)]
      | num n => rfl

/-- C10: a correctly signed state token whose decoded payload has an empty
or missing `returnTo` (TastyTrade) or `userSub` (Schwab) field is rejected by
the verifier, returning absent: the empty case for signer-produced payloads,
and the missing case for any correctly signed payload object that lacks the
key altogether; in particular, the TastyTrade authorize operation invoked
without a `return_to` query parameter signs a state with `returnTo = ""` that
its own callback's verification treats as absent. -/
theorem claim_C10_empty_field_rejected (hmacHex : HmacFun)
    (hhex : ∀ k m, IsHexDigest (hmacHex k m))
    (secret nonce : Bytes) (issuedAt : Nat) (hn : StrBounded nonce) :
    (Tasty.parseSignedState hmacHex
        (some (Tasty.createSignedState hmacHex nonce [] issuedAt secret)) secret = none) ∧
    (Schwab.parseSignedState hmacHex
        (some (Schwab.createSignedState hmacHex nonce [] issuedAt secret)) secret = none) ∧
    (∀ ms : Jmembers, MembersBounded ms → lookupField ms returnToKey = none →
      Tasty.parseSignedState hmacHex
        (some (toBase64Url (printObj ms) ++
          46 :: hmacHex secret (toBase64Url (printObj ms)))) secret = none) ∧
    (∀ ms : Jmembers, MembersBounded ms → lookupField ms userSubKey = none →
      Schwab.parseSignedState hmacHex
        (some (toBase64Url (printObj ms) ++
          46 :: hmacHex secret (toBase64Url (printObj ms)))) secret = none) ∧
    (Tasty.parseSignedState hmacHex
        (some (Tasty.authorizeStateParam hmacHex none nonce issuedAt secret)) secret = none) := by
  refine ⟨?_, ?_, ?_, ?_, ?_⟩
  · rw [tastyParse_create hmacHex secret nonce [] issuedAt hhex hn (by intro b hb; simp at hb)]
    simp
  · rw [schwabParse_create hmacHex secret nonce [] issuedAt hhex hn (by intro b hb; simp at hb)]
    simp
  · intro ms hb hlf
    apply tastyParse_badShape hmacHex hhex secret _ ms
    · rw [fromBase64Url_toBase64Url _ (printObj_bounded ms hb), jsonParse_printObj]
    · intro r hr
      rw [hlf] at hr
      cases hr
  · intro ms hb hlf
    apply schwabParse_badShape hmacHex hhex secret _ ms
    · rw [fromBase64Url_toBase64Url _ (printObj_bounded ms hb), jsonParse_printObj]
    · intro u hu
      rw [hlf] at hu
      cases hu
  · show Tasty.parseSignedState hmacHex
        (some (Tasty.createSignedState hmacHex nonce ((none : Option Bytes).getD [])
          issuedAt secret)) secret = none
    rw [show ((none : Option Bytes).getD []) = [] from rfl]
    rw [tastyParse_create hmacHex secret nonce [] issuedAt hhex hn (by intro b hb; simp at hb)]
    simp

theorem claim_C10_empty_field_rejected_witness :
    (Tasty.parseSignedState (fun _ _ => List.replicate 64 97)
        (some (Tasty.createSignedState (fun _ _ => List.replicate 64 97)
          (strBytes "n-2") [] 5 (strBytes "sek"))) (strBytes "sek") = none) ∧
    (Schwab.parseSignedState (fun _ _ => List.replicate 64 97)
        (some (Schwab.createSignedState (fun _ _ => List.replicate 64 97)
          (strBytes "n-2") [] 5 (strBytes "sek"))) (strBytes "sek") = none) ∧
    (Tasty.parseSignedState (fun _ _ => List.replicate 64 97)
        (some (toBase64Url (printObj
            [(nonceKey, Jval.str (strBytes "n-2")), (issuedAtKey, Jval.num 5)]) ++
          46 :: List.replicate 64 97)) (strBytes "sek") = none) ∧
    (Schwab.parseSignedState (fun _ _ => List.replicate 64 97)
        (some (toBase64Url (printObj
            [(nonceKey, Jval.str (strBytes "n-2")), (issuedAtKey, Jval.num 5)]) ++
          46 :: List.replicate 64 97)) (strBytes "sek") = none) ∧
    (Tasty.parseSignedState (fun _ _ => List.replicate 64 97)
        (some (Tasty.authorizeStateParam (fun _ _ => List.replicate 64 97)
          none (strBytes "n-2") 5 (strBytes "sek"))) (strBytes "sek") = none) := by
  have h := claim_C10_empty_field_rejected (fun _ _ => List.replicate 64 97)
    (fun _ _ => ⟨by simp, fun c hc => by rw [List.eq_of_mem_replicate hc]; omega⟩)
    (strBytes "sek") (strBytes "n-2") 5 (by decide)
  have hmb : MembersBounded
      [(nonceKey, Jval.str (strBytes "n-2")), (issuedAtKey, Jval.num 5)] := by
    intro p hp
    simp only [List.mem_cons, List.mem_singleton] at hp
    rcases hp with hp | hp | hp
    · subst hp
      exact ⟨nonceKey_bounded, show StrBounded (strBytes "n-2") by decide⟩
    · subst hp
      exact ⟨issuedAtKey_bounded, trivial⟩
    · simp at hp
  exact ⟨h.1, h.2.1,
    h.2.2.1 [(nonceKey, Jval.str (strBytes "n-2")), (issuedAtKey, Jval.num 5)] hmb (by decide),
    h.2.2.2.1 [(nonceKey, Jval.str (strBytes "n-2")), (issuedAtKey, Jval.num 5)] hmb (by decide),
    h.2.2.2.2⟩

/-- C4: the state verifiers of both handlers return absent (`none`) on every
structural failure — missing or empty state, no dot separator, a signature of
a different length than the recomputed digest, a signature mismatch
(including any single altered character of the signature segment), a payload
that does not decode to JSON, and a decoded payload missing its required
non-empty string field — and, being total functions into `Option`, never
surface a distinguishable error for any of these causes. -/
theorem claim_C4_verify_structural_failures (hmacHex : HmacFun)
    (hhex : ∀ k m, IsHexDigest (hmacHex k m)) (secret : Bytes) :
    (Tasty.parseSignedState hmacHex none secret = none) ∧
    (Tasty.parseSignedState hmacHex (some []) secret = none) ∧
    (∀ v, 46 ∉ v → Tasty.parseSignedState hmacHex (some v) secret = none) ∧
    (∀ enc sig, 46 ∉ sig → sig.length ≠ (hmacHex secret enc).length →
      Tasty.parseSignedState hmacHex (some (enc ++ 46 :: sig)) secret = none) ∧
    (∀ enc sig, 46 ∉ sig → sig ≠ hmacHex secret enc →
      Tasty.parseSignedState hmacHex (some (enc ++ 46 :: sig)) secret = none) ∧
    (∀ enc i c, ∀ hi : i < (hmacHex secret enc).length, c ≠ (hmacHex secret enc)[i] →
      Tasty.parseSignedState hmacHex
        (some (enc ++ 46 :: (hmacHex secret enc).set i c)) secret = none) ∧
    (∀ enc, jsonParse (fromBase64Url enc) = none →
      Tasty.parseSignedState hmacHex (some (enc ++ 46 :: hmacHex secret enc)) secret = none) ∧
    (∀ enc ms, jsonParse (fromBase64Url enc) = some ms →
      (∀ r, lookupField ms returnToKey = some (Jval.str r) → r = []) →
      Tasty.parseSignedState hmacHex (some (enc ++ 46 :: hmacHex secret enc)) secret = none) ∧
    (Schwab.parseSignedState hmacHex none secret = none) ∧
    (Schwab.parseSignedState hmacHex (some []) secret = none) ∧
    (∀ v, 46 ∉ v → Schwab.parseSignedState hmacHex (some v) secret = none) ∧
    (∀ enc sig, 46 ∉ sig → sig.length ≠ (hmacHex secret enc).length →
      Schwab.parseSignedState hmacHex (some (enc ++ 46 :: sig)) secret = none) ∧
    (∀ enc sig, 46 ∉ sig → sig ≠ hmacHex secret enc →
      Schwab.parseSignedState hmacHex (some (enc ++ 46 :: sig)) secret = none) ∧
    (∀ enc i c, ∀ hi : i < (hmacHex secret enc).length, c ≠ (hmacHex secret enc)[i] →
      Schwab.parseSignedState hmacHex
        (some (enc ++ 46 :: (hmacHex secret enc).set i c)) secret = none) ∧
    (∀ enc, jsonParse (fromBase64Url enc) = none →
      Schwab.parseSignedState hmacHex (some (enc ++ 46 :: hmacHex secret enc)) secret = none) ∧
    (∀ enc ms, jsonParse (fromBase64Url enc) = some ms →
      (∀ u, lookupField ms userSubKey = some (Jval.str u) → u = []) →
      Schwab.parseSignedState hmacHex (some (enc ++ 46 :: hmacHex secret enc)) secret = none) := by
  refine ⟨tastyParse_missing hmacHex secret, tastyParse_empty hmacHex secret,
    fun v h46 => tastyParse_noSep hmacHex secret v h46,
    fun enc sig h46 hlen => tastyParse_lenMismatch hmacHex secret enc sig h46 hlen,
    fun enc sig h46 hne => tastyParse_sigMismatch hmacHex secret enc sig h46 hne,
    fun enc i c hi hc => tastyParse_alteredSig hmacHex hhex secret enc i c hi hc,
    fun enc hjson => tastyParse_badPayload hmacHex hhex secret enc hjson,
    fun enc ms hjson hshape => tastyParse_badShape hmacHex hhex secret enc ms hjson hshape,
    schwabParse_missing hmacHex secret, schwabParse_empty hmacHex secret,
    fun v h46 => schwabParse_noSep hmacHex secret v h46,
    fun enc sig h46 hlen => schwabParse_lenMismatch hmacHex secret enc sig h46 hlen,
    fun enc sig h46 hne => schwabParse_sigMismatch hmacHex secret enc sig h46 hne,
    fun enc i c hi hc => schwabParse_alteredSig hmacHex hhex secret enc i c hi hc,
    fun enc hjson => schwabParse_badPayload hmacHex hhex secret enc hjson,
    fun enc ms hjson hshape => schwabParse_badShape hmacHex hhex secret enc ms hjson hshape⟩

theorem claim_C4_verify_structural_failures_witness :
    (Tasty.parseSignedState (fun _ _ => List.replicate 64 48) (some (strBytes "nodot"))
      (strBytes "sek") = none) ∧
    (Tasty.parseSignedState (fun _ _ => List.replicate 64 48)
      (some (strBytes "payload" ++ 46 :: strBytes "sig")) (strBytes "sek") = none) ∧
    (Tasty.parseSignedState (fun _ _ => List.replicate 64 48)
      (some (strBytes "payload" ++ 46 :: List.replicate 64 49)) (strBytes "sek") = none) ∧
    (Tasty.parseSignedState (fun _ _ => List.replicate 64 48)
      (some (strBytes "payload" ++ 46 :: (List.replicate 64 48).set 0 49))
      (strBytes "sek") = none) ∧
    (Tasty.parseSignedState (fun _ _ => List.replicate 64 48)
      (some ([] ++ 46 :: List.replicate 64 48)) (strBytes "sek") = none) ∧
    (Tasty.parseSignedState (fun _ _ => List.replicate 64 48)
      (some (toBase64Url (printObj [(nonceKey, Jval.str (strBytes "n"))]) ++
        46 :: List.replicate 64 48)) (strBytes "sek") = none) ∧
    (Schwab.parseSignedState (fun _ _ => List.replicate 64 48)
      (some (strBytes "payload" ++ 46 :: (List.replicate 64 48).set 0 49))
      (strBytes "sek") = none) := by
  have hhex : ∀ k m : Bytes, IsHexDigest ((fun _ _ => List.replicate 64 48) k m) :=
    fun _ _ => ⟨by simp, fun c hc => by rw [List.eq_of_mem_replicate hc]; omega⟩
  have h := claim_C4_verify_structural_failures (fun _ _ => List.replicate 64 48) hhex
    (strBytes "sek")
  have hb : StrBounded (printObj [(nonceKey, Jval.str (strBytes "n"))]) := by
    apply printObj_bounded
    intro p hp
    simp only [List.mem_singleton] at hp
    subst hp
    exact ⟨nonceKey_bounded, show StrBounded (strBytes "n") by decide⟩
  refine ⟨h.2.2.1 (strBytes "nodot") (by decide),
    h.2.2.2.1 (strBytes "payload") (strBytes "sig") (by decide) (by decide),
    h.2.2.2.2.1 (strBytes "payload") (List.replicate 64 49) (by decide) (by decide),
    h.2.2.2.2.2.1 (strBytes "payload") 0 49 (by decide) (by decide),
    h.2.2.2.2.2.2.1 [] (by rw [show fromBase64Url [] = [] from rfl]; rfl),
    h.2.2.2.2.2.2.2.1 (toBase64Url (printObj [(nonceKey, Jval.str (strBytes "n"))]))
      [(nonceKey, Jval.str (strBytes "n"))]
      (by rw [fromBase64Url_toBase64Url _ hb, jsonParse_printObj])
      (by
        intro r hr
        rw [show lookupField [(nonceKey, Jval.str (strBytes "n"))] returnToKey = none from
          by decide] at hr
        cases hr),
    h.2.2.2.2.2.2.2.2.2.2.2.2.2.1 (strBytes "payload") 0 49 (by decide) (by decide)⟩

/-- C6: when the provider's refresh response omits `refresh_token`, the
record built and persisted by `refreshAccessToken` carries the prior record's
refresh token forward, in both handlers: the call returns the refreshed
record, its `refreshToken` equals the stored one, and exactly that record is
saved. -/
theorem claim_C6_refresh_carries_token_forward (st : TokenRecord)
    (userSub pname : Bytes) (now : Int) (store : Store)
    (respS : Schwab.SchwabTokenResponse) (respT : Tasty.TastyTokenResponse)
    (hSok : respS.ok = true) (hSa : jsTruthyStr respS.access_token = true)
    (hSe : jsTruthyNum respS.expires_in = true) (hSrt : respS.refresh_token = none)
    (hT2 : 200 ≤ respT.status) (hT3 : respT.status < 300)
    (hTa : jsTruthyStr respT.access_token = true)
    (hTe : jsTruthyNum respT.expires_in = true) (hTrt : respT.refresh_token = none) :
    (∃ r, Schwab.refreshAccessToken st respS userSub now pname store =
        (Except.ok r, Schwab.saveTokens store pname r userSub) ∧
      r.refreshToken = st.refreshToken) ∧
    (∃ r, Tasty.refreshAccessToken st respT now pname store =
        (Except.ok r, Tasty.saveTokens store pname r) ∧
      r.refreshToken = st.refreshToken) := by
  have hreqS : Schwab.requestToken respS = Except.ok respS := by
    rw [Schwab.requestToken, if_neg (by simp [hSok, hSa, hSe])]
  have hreqT : Tasty.requestToken respT = Except.ok respT := by
    rw [Tasty.requestToken, if_neg (by simp [hTa, hTe]; omega)]
  have hbuildT : Tasty.buildTokenRecord respT (some st.refreshToken) now =
      Except.ok { accessToken := respT.access_token.getD []
                  refreshToken := st.refreshToken
                  expiresAt := some (now + (respT.expires_in.getD 0) * 1000) } := by
    rw [Tasty.buildTokenRecord, if_neg (by simp [hTa, hTe]), hTrt]
    rfl
  constructor
  · refine ⟨Schwab.buildTokenRecord (respS.access_token.getD []) respS.refresh_token
      (respS.expires_in.getD 0) (some st.refreshToken) now, ?_, ?_⟩
    · simp only [Schwab.refreshAccessToken, hreqS]
    · rw [Schwab.buildTokenRecord, hSrt]
      rfl
  · refine ⟨{ accessToken := respT.access_token.getD []
              refreshToken := st.refreshToken
              expiresAt := some (now + (respT.expires_in.getD 0) * 1000) }, ?_, ?_⟩
    · simp only [Tasty.refreshAccessToken, hreqT, hbuildT]
    · rfl

theorem claim_C6_refresh_carries_token_forward_witness :
    (∃ r, Schwab.refreshAccessToken
        { accessToken := strBytes "oldA", refreshToken := strBytes "oldR",
          expiresAt := some 1000 }
        { ok := true, error := none, access_token := some (strBytes "newA"),
          refresh_token := none, expires_in := some 1800 }
        (strBytes "u1") 0 (strBytes "p") (fun _ => none) =
        (Except.ok r, Schwab.saveTokens (fun _ => none) (strBytes "p") r (strBytes "u1")) ∧
      r.refreshToken = strBytes "oldR") ∧
    (∃ r, Tasty.refreshAccessToken
        { accessToken := strBytes "oldA", refreshToken := strBytes "oldR",
          expiresAt := some 1000 }
        { status := 200, contentType := strBytes "application/json",
          payloadMessage := strBytes "ok", access_token := some (strBytes "newA"),
          refresh_token := none, expires_in := some 1800 }
        0 (strBytes "p") (fun _ => none) =
        (Except.ok r, Tasty.saveTokens (fun _ => none) (strBytes "p") r) ∧
      r.refreshToken = strBytes "oldR") :=
  claim_C6_refresh_carries_token_forward
    { accessToken := strBytes "oldA", refreshToken := strBytes "oldR", expiresAt := some 1000 }
    (strBytes "u1") (strBytes "p") 0 (fun _ => none)
    { ok := true, error := none, access_token := some (strBytes "newA"),
      refresh_token := none, expires_in := some 1800 }
    { status := 200, contentType := strBytes "application/json",
      payloadMessage := strBytes "ok", access_token := some (strBytes "newA"),
      refresh_token := none, expires_in := some 1800 }
    rfl (by decide) (by decide) rfl (by decide) (by decide) (by decide) (by decide) rfl

/-- C7: an authorization-code exchange whose otherwise successful provider
response (present access token and expiry) lacks a refresh token — omitted or
empty — fails with the missing-refresh-token error and performs no write: the
returned store is exactly the input store, in both handlers. -/
theorem claim_C7_exchange_missing_refresh_token (userSub pname : Bytes) (now : Int)
    (store : Store) (respS : Schwab.SchwabTokenResponse) (respT : Tasty.TastyTokenResponse)
    (hSok : respS.ok = true) (hSa : jsTruthyStr respS.access_token = true)
    (hSe : jsTruthyNum respS.expires_in = true)
    (hSrt : respS.refresh_token = none ∨ respS.refresh_token = some [])
    (hT2 : 200 ≤ respT.status) (hT3 : respT.status < 300)
    (hTa : jsTruthyStr respT.access_token = true)
    (hTe : jsTruthyNum respT.expires_in = true)
    (hTrt : respT.refresh_token = none ∨ respT.refresh_token = some []) :
    Schwab.exchangeAuthorizationCode respS userSub now pname store =
      (Except.error (strBytes "Token exchange succeeded but no refresh token was returned."),
        store) ∧
    Tasty.exchangeCodeForTokens respT now pname store =
      (Except.error (strBytes "Token exchange succeeded but no refresh token was returned."),
        store) := by
  have hreqS : Schwab.requestToken respS = Except.ok respS := by
    rw [Schwab.requestToken, if_neg (by simp [hSok, hSa, hSe])]
  have hreqT : Tasty.requestToken respT = Except.ok respT := by
    rw [Tasty.requestToken, if_neg (by simp [hTa, hTe]; omega)]
  constructor
  · have hrt : (Schwab.buildTokenRecord (respS.access_token.getD []) respS.refresh_token
        (respS.expires_in.getD 0) none now).refreshToken = [] := by
      rcases hSrt with h | h <;> simp [Schwab.buildTokenRecord, h]
    simp only [Schwab.exchangeAuthorizationCode, hreqS, hrt, if_pos]
  · have hbuildT : Tasty.buildTokenRecord respT none now =
        Except.ok { accessToken := respT.access_token.getD []
                    refreshToken := respT.refresh_token.getD []
                    expiresAt := some (now + (respT.expires_in.getD 0) * 1000) } := by
      rw [Tasty.buildTokenRecord, if_neg (by simp [hTa, hTe])]
      rfl
    simp only [Tasty.exchangeCodeForTokens, hreqT, hbuildT]
    rw [if_pos (by rcases hTrt with h | h <;> simp [h])]

theorem claim_C7_exchange_missing_refresh_token_witness :
    Schwab.exchangeAuthorizationCode
      { ok := true, error := none, access_token := some (strBytes "tok"),
        refresh_token := none, expires_in := some 1800 }
      (strBytes "u1") 0 (strBytes "p") (fun _ => none) =
      (Except.error (strBytes "Token exchange succeeded but no refresh token was returned."),
        fun _ => none) ∧
    Tasty.exchangeCodeForTokens
      { status := 201, contentType := strBytes "application/json",
        payloadMessage := strBytes "ok", access_token := some (strBytes "tok"),
        refresh_token := some [], expires_in := some 1800 }
      0 (strBytes "p") (fun _ => none) =
      (Except.error (strBytes "Token exchange succeeded but no refresh token was returned."),
        fun _ => none) :=
  claim_C7_exchange_missing_refresh_token (strBytes "u1") (strBytes "p") 0 (fun _ => none)
    { ok := true, error := none, access_token := some (strBytes "tok"),
      refresh_token := none, expires_in := some 1800 }
    { status := 201, contentType := strBytes "application/json",
      payloadMessage := strBytes "ok", access_token := some (strBytes "tok"),
      refresh_token := some [], expires_in := some 1800 }
    rfl (by decide) (by decide) (Or.inl rfl) (by decide) (by decide) (by decide) (by decide)
    (Or.inr rfl)


theorem schwabRequestToken_ok (respS : Schwab.SchwabTokenResponse)
    (hSok : respS.ok = true) (hSa : jsTruthyStr respS.access_token = true)
    (hSe : jsTruthyNum respS.expires_in = true) :
    Schwab.requestToken respS = Except.ok respS := by
  rw [Schwab.requestToken, if_neg (by simp [hSok, hSa, hSe])]

theorem tastyRequestToken_ok (respT : Tasty.TastyTokenResponse)
    (hT2 : 200 ≤ respT.status) (hT3 : respT.status < 300)
    (hTa : jsTruthyStr respT.access_token = true)
    (hTe : jsTruthyNum respT.expires_in = true) :
    Tasty.requestToken respT = Except.ok respT := by
  rw [Tasty.requestToken, if_neg (by simp [hTa, hTe]; omega)]

theorem schwabRefresh_ok (st : TokenRecord) (respS : Schwab.SchwabTokenResponse)
    (userSub pname : Bytes) (now : Int) (store : Store)
    (hSok : respS.ok = true) (hSa : jsTruthyStr respS.access_token = true)
    (hSe : jsTruthyNum respS.expires_in = true) :
    Schwab.refreshAccessToken st respS userSub now pname store =
      (Except.ok (Schwab.buildTokenRecord (respS.access_token.getD []) respS.refresh_token
          (respS.expires_in.getD 0) (some st.refreshToken) now),
        Schwab.saveTokens store pname
          (Schwab.buildTokenRecord (respS.access_token.getD []) respS.refresh_token
            (respS.expires_in.getD 0) (some st.refreshToken) now) userSub) := by
  simp only [Schwab.refreshAccessToken, schwabRequestToken_ok respS hSok hSa hSe]

theorem tastyRefresh_ok (st : TokenRecord) (respT : Tasty.TastyTokenResponse)
    (pname : Bytes) (now : Int) (store : Store)
    (hT2 : 200 ≤ respT.status) (hT3 : respT.status < 300)
    (hTa : jsTruthyStr respT.access_token = true)
    (hTe : jsTruthyNum respT.expires_in = true) :
    Tasty.refreshAccessToken st respT now pname store =
      (Except.ok { accessToken := respT.access_token.getD []
                   refreshToken := respT.refresh_token.getD st.refreshToken
                   expiresAt := some (now + (respT.expires_in.getD 0) * 1000) },
        Tasty.saveTokens store pname
          { accessToken := respT.access_token.getD []
            refreshToken := respT.refresh_token.getD st.refreshToken
            expiresAt := some (now + (respT.expires_in.getD 0) * 1000) }) := by
  have hbuildT : Tasty.buildTokenRecord respT (some st.refreshToken) now =
      Except.ok { accessToken := respT.access_token.getD []
                  refreshToken := respT.refresh_token.getD st.refreshToken
                  expiresAt := some (now + (respT.expires_in.getD 0) * 1000) } := by
    rw [Tasty.buildTokenRecord, if_neg (by simp [hTa, hTe])]
    rfl
  simp only [Tasty.refreshAccessToken, tastyRequestToken_ok respT hT2 hT3 hTa hTe, hbuildT]

theorem schwabGetValid_fresh (storeS : Store) (pname userSub : Bytes) (st : TokenRecord)
    (now e : Int) (respS : Schwab.SchwabTokenResponse)
    (hS : Schwab.getStoredTokens storeS pname userSub = some st)
    (ha : st.accessToken ≠ []) (hr : st.refreshToken ≠ [])
    (hexp : st.expiresAt = some e) (hfresh : now + 60000 < e) :
    Schwab.getValidAccessToken storeS pname userSub now respS =
      (Except.ok (some st.accessToken), storeS, false) := by
  have hnotexp : isExpired st.expiresAt now = false := by
    rw [hexp, isExpired]
    simp
    omega
  simp only [Schwab.getValidAccessToken, hS]
  rw [if_neg (by simp [ha, hr]), if_pos (by simp [hnotexp])]

theorem tastyGetValid_fresh (storeT : Store) (pname : Bytes) (st : TokenRecord)
    (now e : Int) (respT : Tasty.TastyTokenResponse)
    (hT : Tasty.getStoredTokens storeT pname = some st)
    (ha : st.accessToken ≠ []) (hr : st.refreshToken ≠ [])
    (hexp : st.expiresAt = some e) (hfresh : now + 60000 < e) :
    Tasty.getValidAccessToken storeT pname now respT =
      (Except.ok (some st.accessToken), storeT, false) := by
  have hnotexp : isExpired st.expiresAt now = false := by
    rw [hexp, isExpired]
    simp
    omega
  simp only [Tasty.getValidAccessToken, hT]
  rw [if_neg hr, if_pos (by simp [ha, hnotexp])]


/-- C5: with a stored record whose expiry is strictly more than 60 seconds in
the future, `getValidAccessToken` returns the cached access token with no
refresh call and no cache write; with an expiry inside the 60-second buffer
(for example exactly 30 seconds away, i.e. `e - 60000 ≤ now`), it calls the
refresh, persists the refreshed record, and returns the new access token —
in both handlers. -/
theorem claim_C5_expiry_buffer (pname userSub : Bytes) (storeS storeT : Store)
    (st : TokenRecord) (now e : Int)
    (respS : Schwab.SchwabTokenResponse) (respT : Tasty.TastyTokenResponse)
    (hS : Schwab.getStoredTokens storeS pname userSub = some st)
    (hT : Tasty.getStoredTokens storeT pname = some st)
    (ha : st.accessToken ≠ []) (hr : st.refreshToken ≠ [])
    (hexp : st.expiresAt = some e)
    (hSok : respS.ok = true) (hSa : jsTruthyStr respS.access_token = true)
    (hSe : jsTruthyNum respS.expires_in = true)
    (hT2 : 200 ≤ respT.status) (hT3 : respT.status < 300)
    (hTa : jsTruthyStr respT.access_token = true)
    (hTe : jsTruthyNum respT.expires_in = true) :
    (now + 60000 < e →
      Schwab.getValidAccessToken storeS pname userSub now respS =
        (Except.ok (some st.accessToken), storeS, false) ∧
      Tasty.getValidAccessToken storeT pname now respT =
        (Except.ok (some st.accessToken), storeT, false)) ∧
    (e - 60000 ≤ now →
      Schwab.getValidAccessToken storeS pname userSub now respS =
        (Except.ok (some (respS.access_token.getD [])),
         Schwab.saveTokens storeS pname
           (Schwab.buildTokenRecord (respS.access_token.getD []) respS.refresh_token
             (respS.expires_in.getD 0) (some st.refreshToken) now) userSub,
         true) ∧
      Tasty.getValidAccessToken storeT pname now respT =
        (Except.ok (some (respT.access_token.getD [])),
         Tasty.saveTokens storeT pname
           { accessToken := respT.access_token.getD []
             refreshToken := respT.refresh_token.getD st.refreshToken
             expiresAt := some (now + (respT.expires_in.getD 0) * 1000) },
         true)) := by
  constructor
  · intro hfresh
    exact ⟨schwabGetValid_fresh storeS pname userSub st now e respS hS ha hr hexp hfresh,
      tastyGetValid_fresh storeT pname st now e respT hT ha hr hexp hfresh⟩
  · intro hstale
    have hisexp : isExpired st.expiresAt now = true := by
      rw [hexp, isExpired]
      simpa using hstale
    constructor
    · simp only [Schwab.getValidAccessToken, hS]
      rw [if_neg (by simp [ha, hr]), if_neg (by simp [hisexp])]
      rw [schwabRefresh_ok st respS userSub pname now storeS hSok hSa hSe]
      rfl
    · simp only [Tasty.getValidAccessToken, hT]
      rw [if_neg hr, if_neg (by simp [hisexp])]
      rw [tastyRefresh_ok st respT pname now storeT hT2 hT3 hTa hTe]

theorem claim_C5_expiry_buffer_witness :
    (Schwab.getValidAccessToken
        (fun n => if n = getUserScopedParameterName (strBytes "p") (strBytes "u1") then
          some { accessToken := strBytes "tokA", refreshToken := strBytes "tokR",
                 expiresAt := some 100000 }
          else none)
        (strBytes "p") (strBytes "u1") 0
        { ok := true, error := none, access_token := some (strBytes "newA"),
          refresh_token := none, expires_in := some 1800 } =
      (Except.ok (some (strBytes "tokA")),
        (fun n => if n = getUserScopedParameterName (strBytes "p") (strBytes "u1") then
          some { accessToken := strBytes "tokA", refreshToken := strBytes "tokR",
                 expiresAt := some 100000 }
          else none),
        false) ∧
     Tasty.getValidAccessToken
        (fun n => if n = strBytes "p" then
          some { accessToken := strBytes "tokA", refreshToken := strBytes "tokR",
                 expiresAt := some 100000 }
          else none)
        (strBytes "p") 0
        { status := 200, contentType := strBytes "ct", payloadMessage := strBytes "pm",
          access_token := some (strBytes "newA"), refresh_token := none,
          expires_in := some 1800 } =
      (Except.ok (some (strBytes "tokA")),
        (fun n => if n = strBytes "p" then
          some { accessToken := strBytes "tokA", refreshToken := strBytes "tokR",
                 expiresAt := some 100000 }
          else none),
        false)) ∧
    (Schwab.getValidAccessToken
        (fun n => if n = getUserScopedParameterName (strBytes "p") (strBytes "u1") then
          some { accessToken := strBytes "tokA", refreshToken := strBytes "tokR",
                 expiresAt := some 30000 }
          else none)
        (strBytes "p") (strBytes "u1") 0
        { ok := true, error := none, access_token := some (strBytes "newA"),
          refresh_token := none, expires_in := some 1800 } =
      (Except.ok (some ((some (strBytes "newA") : Option Bytes).getD [])),
       Schwab.saveTokens
        (fun n => if n = getUserScopedParameterName (strBytes "p") (strBytes "u1") then
          some { accessToken := strBytes "tokA", refreshToken := strBytes "tokR",
                 expiresAt := some 30000 }
          else none)
        (strBytes "p")
        (Schwab.buildTokenRecord ((some (strBytes "newA") : Option Bytes).getD []) none
          ((some 1800 : Option Nat).getD 0) (some (strBytes "tokR")) 0)
        (strBytes "u1"),
       true) ∧
     Tasty.getValidAccessToken
        (fun n => if n = strBytes "p" then
          some { accessToken := strBytes "tokA", refreshToken := strBytes "tokR",
                 expiresAt := some 30000 }
          else none)
        (strBytes "p") 0
        { status := 200, contentType := strBytes "ct", payloadMessage := strBytes "pm",
          access_token := some (strBytes "newA"), refresh_token := none,
          expires_in := some 1800 } =
      (Except.ok (some ((some (strBytes "newA") : Option Bytes).getD [])),
       Tasty.saveTokens
        (fun n => if n = strBytes "p" then
          some { accessToken := strBytes "tokA", refreshToken := strBytes "tokR",
                 expiresAt := some 30000 }
          else none)
        (strBytes "p")
        { accessToken := (some (strBytes "newA") : Option Bytes).getD []
          refreshToken := (none : Option Bytes).getD (strBytes "tokR")
          expiresAt := some (0 + ((some 1800 : Option Nat).getD 0 : Nat) * 1000) },
       true)) := by
  constructor
  · exact (claim_C5_expiry_buffer (strBytes "p") (strBytes "u1") _ _
      { accessToken := strBytes "tokA", refreshToken := strBytes "tokR",
        expiresAt := some 100000 }
      0 100000
      { ok := true, error := none, access_token := some (strBytes "newA"),
        refresh_token := none, expires_in := some 1800 }
      { status := 200, contentType := strBytes "ct", payloadMessage := strBytes "pm",
        access_token := some (strBytes "newA"), refresh_token := none,
        expires_in := some 1800 }
      (by rw [Schwab.getStoredTokens]; simp) (by rw [Tasty.getStoredTokens]; simp)
      (by decide) (by decide) rfl rfl (by decide) (by decide) (by decide) (by decide)
      (by decide) (by decide)).1 (by omega)
  · exact (claim_C5_expiry_buffer (strBytes "p") (strBytes "u1") _ _
      { accessToken := strBytes "tokA", refreshToken := strBytes "tokR",
        expiresAt := some 30000 }
      0 30000
      { ok := true, error := none, access_token := some (strBytes "newA"),
        refresh_token := none, expires_in := some 1800 }
      { status := 200, contentType := strBytes "ct", payloadMessage := strBytes "pm",
        access_token := some (strBytes "newA"), refresh_token := none,
        expires_in := some 1800 }
      (by rw [Schwab.getStoredTokens]; simp) (by rw [Tasty.getStoredTokens]; simp)
      (by decide) (by decide) rfl rfl (by decide) (by decide) (by decide) (by decide)
      (by decide) (by decide)).2 (by omega)

/-- C3: a callback whose state parameter does not verify (missing, malformed,
or signed under a different session secret — any input on which the verifier
returns absent) is rejected before the authorization-code exchange: the
TastyTrade handler answers with the error redirect and the Schwab handler
with the 400 page, neither attempts the exchange, and the Token Cache is
returned unchanged. -/
theorem claim_C3_invalid_state_rejected (hmacHex : HmacFun)
    (code stateParam : Option Bytes) (sessionSecret appSecret : Bytes)
    (respT : Tasty.TastyTokenResponse) (respS : Schwab.SchwabTokenResponse)
    (now : Int) (pname : Bytes) (storeT storeS : Store)
    (hT : Tasty.parseSignedState hmacHex stateParam sessionSecret = none)
    (hS : Schwab.parseSignedState hmacHex stateParam appSecret = none) :
    Tasty.callbackHandler hmacHex code stateParam sessionSecret respT now pname storeT =
      (Tasty.TastyCallbackResult.redirectError
        (Tasty.defaultPopupPath ++ Tasty.oauthErrorSuffix), storeT, false) ∧
    Schwab.callbackHandler hmacHex code stateParam appSecret respS now pname storeS =
      (Schwab.CallbackResult.missingCodeOrState, storeS, false) := by
  constructor
  · simp [Tasty.callbackHandler, hT]
  · simp [Schwab.callbackHandler, hS]

theorem claim_C3_invalid_state_rejected_witness :
    Tasty.callbackHandler (fun _ _ => List.replicate 64 48)
        (some (strBytes "authcode")) (some (strBytes "garbage-no-dot"))
        (strBytes "sek")
        { status := 200, contentType := strBytes "ct", payloadMessage := strBytes "pm",
          access_token := some (strBytes "a"), refresh_token := some (strBytes "r"),
          expires_in := some 1800 }
        0 (strBytes "p") (fun _ => none) =
      (Tasty.TastyCallbackResult.redirectError
        (Tasty.defaultPopupPath ++ Tasty.oauthErrorSuffix), fun _ => none, false) ∧
    Schwab.callbackHandler (fun _ _ => List.replicate 64 48)
        (some (strBytes "authcode")) (some (strBytes "garbage-no-dot"))
        (strBytes "sek")
        { ok := true, error := none, access_token := some (strBytes "a"),
          refresh_token := some (strBytes "r"), expires_in := some 1800 }
        0 (strBytes "p") (fun _ => none) =
      (Schwab.CallbackResult.missingCodeOrState, fun _ => none, false) :=
  claim_C3_invalid_state_rejected (fun _ _ => List.replicate 64 48)
    (some (strBytes "authcode")) (some (strBytes "garbage-no-dot"))
    (strBytes "sek") (strBytes "sek")
    { status := 200, contentType := strBytes "ct", payloadMessage := strBytes "pm",
      access_token := some (strBytes "a"), refresh_token := some (strBytes "r"),
      expires_in := some 1800 }
    { ok := true, error := none, access_token := some (strBytes "a"),
      refresh_token := some (strBytes "r"), expires_in := some 1800 }
    0 (strBytes "p") (fun _ => none) (fun _ => none)
    (tastyParse_noSep (fun _ _ => List.replicate 64 48) (strBytes "sek")
      (strBytes "garbage-no-dot") (by decide))
    (schwabParse_noSep (fun _ _ => List.replicate 64 48) (strBytes "sek")
      (strBytes "garbage-no-dot") (by decide))

/-- C8: starting from a fresh stored token (so the read path itself performs
no refresh), a 401 from the first market-data call makes the
`/schwab/market-info` branch perform exactly one refresh-and-retry cycle —
the call trace is data call, one refresh, one retry data call, nothing more —
and a still-failing retry is returned as the error without any further
refresh or retry; when the first call is not a 401 there is no refresh at
all. -/
theorem claim_C8_single_refresh_retry (s0 : Bytes) (store : Store)
    (pname userSub : Bytes) (now e : Int) (st : TokenRecord)
    (respFresh respRefresh : Schwab.SchwabTokenResponse) (md1 md2 : MDResp)
    (hs0 : jsTrim s0 ≠ [])
    (hstore : Schwab.getStoredTokens store pname userSub = some st)
    (ha : st.accessToken ≠ []) (hr : st.refreshToken ≠ [])
    (hexp : st.expiresAt = some e) (hfresh : now + 60000 < e)
    (hok : respRefresh.ok = true) (hra : jsTruthyStr respRefresh.access_token = true)
    (hre : jsTruthyNum respRefresh.expires_in = true) :
    (md1.status = 401 →
      (Schwab.marketInfoHandler (some s0) store pname userSub now
          respFresh respRefresh md1 md2).2.2 =
        [MIAction.dataCall, MIAction.refreshCall, MIAction.dataCall] ∧
      (md2.ok = false →
        (Schwab.marketInfoHandler (some s0) store pname userSub now
            respFresh respRefresh md1 md2).1 = MIResult.upstreamError md2.status) ∧
      (md2.ok = true →
        (Schwab.marketInfoHandler (some s0) store pname userSub now
            respFresh respRefresh md1 md2).1 = MIResult.success)) ∧
    (md1.status ≠ 401 →
      (Schwab.marketInfoHandler (some s0) store pname userSub now
          respFresh respRefresh md1 md2).2.2 = [MIAction.dataCall]) := by
  have hvalid := schwabGetValid_fresh store pname userSub st now e respFresh
    hstore ha hr hexp hfresh
  have hrefresh := schwabRefresh_ok st respRefresh userSub pname now store hok hra hre
  constructor
  · intro h401
    have hmain : Schwab.marketInfoHandler (some s0) store pname userSub now
        respFresh respRefresh md1 md2 =
        (if ¬ md2.ok then (MIResult.upstreamError md2.status,
            Schwab.saveTokens store pname
              (Schwab.buildTokenRecord (respRefresh.access_token.getD [])
                respRefresh.refresh_token (respRefresh.expires_in.getD 0)
                (some st.refreshToken) now) userSub,
            [MIAction.dataCall, MIAction.refreshCall, MIAction.dataCall])
          else (MIResult.success,
            Schwab.saveTokens store pname
              (Schwab.buildTokenRecord (respRefresh.access_token.getD [])
                respRefresh.refresh_token (respRefresh.expires_in.getD 0)
                (some st.refreshToken) now) userSub,
            [MIAction.dataCall, MIAction.refreshCall, MIAction.dataCall])) := by
      simp only [Schwab.marketInfoHandler, hvalid, hstore, hrefresh]
      rw [if_neg hs0, if_pos h401]
      simp
    refine ⟨?_, ?_, ?_⟩
    · rw [hmain]
      split <;> rfl
    · intro hnok
      rw [hmain, if_pos (by simp [hnok])]
    · intro hok2
      rw [hmain, if_neg (by simp [hok2])]
  · intro hne401
    simp only [Schwab.marketInfoHandler, hvalid]
    rw [if_neg hs0, if_neg hne401]
    split <;> simp

theorem claim_C8_single_refresh_retry_witness :
    ((Schwab.marketInfoHandler (some (strBytes "AAPL"))
        (fun n => if n = getUserScopedParameterName (strBytes "p") (strBytes "u1") then
          some { accessToken := strBytes "tokA", refreshToken := strBytes "tokR",
                 expiresAt := some 100000 }
          else none)
        (strBytes "p") (strBytes "u1") 0
        { ok := true, error := none, access_token := some (strBytes "fresh"),
          refresh_token := none, expires_in := some 1800 }
        { ok := true, error := none, access_token := some (strBytes "newA"),
          refresh_token := none, expires_in := some 1800 }
        { ok := false, status := 401 } { ok := false, status := 401 }).2.2 =
      [MIAction.dataCall, MIAction.refreshCall, MIAction.dataCall]) ∧
    ((Schwab.marketInfoHandler (some (strBytes "AAPL"))
        (fun n => if n = getUserScopedParameterName (strBytes "p") (strBytes "u1") then
          some { accessToken := strBytes "tokA", refreshToken := strBytes "tokR",
                 expiresAt := some 100000 }
          else none)
        (strBytes "p") (strBytes "u1") 0
        { ok := true, error := none, access_token := some (strBytes "fresh"),
          refresh_token := none, expires_in := some 1800 }
        { ok := true, error := none, access_token := some (strBytes "newA"),
          refresh_token := none, expires_in := some 1800 }
        { ok := false, status := 401 } { ok := false, status := 401 }).1 =
      MIResult.upstreamError 401) ∧
    ((Schwab.marketInfoHandler (some (strBytes "AAPL"))
        (fun n => if n = getUserScopedParameterName (strBytes "p") (strBytes "u1") then
          some { accessToken := strBytes "tokA", refreshToken := strBytes "tokR",
                 expiresAt := some 100000 }
          else none)
        (strBytes "p") (strBytes "u1") 0
        { ok := true, error := none, access_token := some (strBytes "fresh"),
          refresh_token := none, expires_in := some 1800 }
        { ok := true, error := none, access_token := some (strBytes "newA"),
          refresh_token := none, expires_in := some 1800 }
        { ok := true, status := 200 } { ok := true, status := 200 }).2.2 =
      [MIAction.dataCall]) := by
  have h1 := claim_C8_single_refresh_retry (strBytes "AAPL")
    (fun n => if n = getUserScopedParameterName (strBytes "p") (strBytes "u1") then
      some { accessToken := strBytes "tokA", refreshToken := strBytes "tokR",
             expiresAt := some 100000 }
      else none)
    (strBytes "p") (strBytes "u1") 0 100000
    { accessToken := strBytes "tokA", refreshToken := strBytes "tokR",
      expiresAt := some 100000 }
    { ok := true, error := none, access_token := some (strBytes "fresh"),
      refresh_token := none, expires_in := some 1800 }
    { ok := true, error := none, access_token := some (strBytes "newA"),
      refresh_token := none, expires_in := some 1800 }
    { ok := false, status := 401 } { ok := false, status := 401 }
    (by decide) (by rw [Schwab.getStoredTokens]; simp) (by decide) (by decide)
    rfl (by omega) rfl (by decide) (by decide)
  have h2 := claim_C8_single_refresh_retry (strBytes "AAPL")
    (fun n => if n = getUserScopedParameterName (strBytes "p") (strBytes "u1") then
      some { accessToken := strBytes "tokA", refreshToken := strBytes "tokR",
             expiresAt := some 100000 }
      else none)
    (strBytes "p") (strBytes "u1") 0 100000
    { accessToken := strBytes "tokA", refreshToken := strBytes "tokR",
      expiresAt := some 100000 }
    { ok := true, error := none, access_token := some (strBytes "fresh"),
      refresh_token := none, expires_in := some 1800 }
    { ok := true, error := none, access_token := some (strBytes "newA"),
      refresh_token := none, expires_in := some 1800 }
    { ok := true, status := 200 } { ok := true, status := 200 }
    (by decide) (by rw [Schwab.getStoredTokens]; simp) (by decide) (by decide)
    rfl (by omega) rfl (by decide) (by decide)
  exact ⟨(h1.1 rfl).1, (h1.1 rfl).2.1 rfl, h2.2 (by decide)⟩

/-- C9: the connection-status operation is a total function of the
`GetValidAccessToken` outcome — every outcome, success or thrown message,
maps to a `{connected, reason?, detail?}` record, so nothing is re-thrown —
and a thrown message is classified by its known substrings, in source order,
into the stable reason codes: the three missing-credential-parameter
messages, then `status 401` (invalid refresh token) as
`invalid_client_or_refresh_token`, and anything else as `unexpected_error`;
the Schwab variant maps every thrown message to `unexpected_error`. -/
theorem claim_C9_status_never_throws_classifies :
    (∀ t : Option Bytes, Tasty.getConnectionStatus (Except.ok t) =
      { connected := jsTruthyStr t, reason := none, detail := none }) ∧
    (∀ m : Bytes, (Tasty.getConnectionStatus (Except.error m)).connected = false) ∧
    (∀ m : Bytes, includes m Tasty.msgClientId = true →
      Tasty.getConnectionStatus (Except.error m) =
        { connected := false, reason := some (strBytes "missing_client_id"),
          detail := some m }) ∧
    (∀ m : Bytes, includes m Tasty.msgClientId = false →
      includes m Tasty.msgClientSecret = true →
      Tasty.getConnectionStatus (Except.error m) =
        { connected := false, reason := some (strBytes "missing_client_secret"),
          detail := some m }) ∧
    (∀ m : Bytes, includes m Tasty.msgClientId = false →
      includes m Tasty.msgClientSecret = false →
      includes m Tasty.msgSessionSecret = true →
      Tasty.getConnectionStatus (Except.error m) =
        { connected := false, reason := some (strBytes "missing_session_secret"),
          detail := some m }) ∧
    (∀ m : Bytes, includes m Tasty.msgClientId = false →
      includes m Tasty.msgClientSecret = false →
      includes m Tasty.msgSessionSecret = false →
      includes m Tasty.msgStatus401 = true →
      Tasty.getConnectionStatus (Except.error m) =
        { connected := false, reason := some (strBytes "invalid_client_or_refresh_token"),
          detail := some m }) ∧
    (∀ m : Bytes, includes m Tasty.msgClientId = false →
      includes m Tasty.msgClientSecret = false →
      includes m Tasty.msgSessionSecret = false →
      includes m Tasty.msgStatus401 = false →
      Tasty.getConnectionStatus (Except.error m) =
        { connected := false, reason := some (strBytes "unexpected_error"),
          detail := some m }) ∧
    (∀ t : Option Bytes, Schwab.getConnectionStatus (Except.ok t) =
      { connected := jsTruthyStr t, reason := none, detail := none }) ∧
    (∀ m : Bytes, Schwab.getConnectionStatus (Except.error m) =
      { connected := false, reason := some (strBytes "unexpected_error"),
        detail := some m }) := by
  refine ⟨fun t => rfl, ?_, ?_, ?_, ?_, ?_, ?_, fun t => rfl, fun m => rfl⟩
  · intro m
    simp only [Tasty.getConnectionStatus]
    split_ifs <;> rfl
  · intro m h1
    simp [Tasty.getConnectionStatus, h1]
  · intro m h1 h2
    simp [Tasty.getConnectionStatus, h1, h2]
  · intro m h1 h2 h3
    simp [Tasty.getConnectionStatus, h1, h2, h3]
  · intro m h1 h2 h3 h4
    simp [Tasty.getConnectionStatus, h1, h2, h3, h4]
  · intro m h1 h2 h3 h4
    simp [Tasty.getConnectionStatus, h1, h2, h3, h4]

set_option maxRecDepth 100000 in
theorem claim_C9_status_never_throws_classifies_witness :
    (Tasty.getConnectionStatus (Except.ok (some (strBytes "tok"))) =
      { connected := jsTruthyStr (some (strBytes "tok")), reason := none, detail := none }) ∧
    (Tasty.getConnectionStatus
        (Except.error Tasty.msgClientId) =
      { connected := false, reason := some (strBytes "missing_client_id"),
        detail := some Tasty.msgClientId }) ∧
    (Tasty.getConnectionStatus
        (Except.error (strBytes "Error: Tasty token request failed (status 401, content-type application/json): bad")) =
      { connected := false, reason := some (strBytes "invalid_client_or_refresh_token"),
        detail := some (strBytes "Error: Tasty token request failed (status 401, content-type application/json): bad") }) ∧
    (Tasty.getConnectionStatus (Except.error (strBytes "boom")) =
      { connected := false, reason := some (strBytes "unexpected_error"),
        detail := some (strBytes "boom") }) ∧
    (Schwab.getConnectionStatus (Except.error (strBytes "boom")) =
      { connected := false, reason := some (strBytes "unexpected_error"),
        detail := some (strBytes "boom") }) := by
  have h := claim_C9_status_never_throws_classifies
  exact ⟨h.1 (some (strBytes "tok")),
    h.2.2.1 Tasty.msgClientId (by decide),
    h.2.2.2.2.2.1
      (strBytes "Error: Tasty token request failed (status 401, content-type application/json): bad")
      (by decide) (by decide) (by decide) (by decide),
    h.2.2.2.2.2.2.1 (strBytes "boom") (by decide) (by decide) (by decide) (by decide),
    h.2.2.2.2.2.2.2.2 (strBytes "boom")⟩

theorem getUserScopedParameterName_inj (p a b : Bytes)
    (h : getUserScopedParameterName p a = getUserScopedParameterName p b) : a = b := by
  rw [getUserScopedParameterName, getUserScopedParameterName] at h
  have h2 := List.append_cancel_left h
  exact List.cons.inj h2 |>.2

/-- C1 counterexample: the claim fails on the TastyTrade handler. Its
`saveTokens` writes under the fixed parameter name itself — not under a key
derived from any caller's subject id — and after user B's callback persists
B's record, the user-independent `getValidAccessToken` hands B's cached
access token to whichever caller asks next (user A included): token-cache
keys are not always derived from the caller's verified subject id. -/
theorem claim_C1_counterexample :
    (Tasty.saveTokens (fun _ => none) (strBytes "tp")
        { accessToken := strBytes "tokB", refreshToken := strBytes "rB",
          expiresAt := some 1000000000000 } =
      putParam (fun _ => none) (strBytes "tp")
        { accessToken := strBytes "tokB", refreshToken := strBytes "rB",
          expiresAt := some 1000000000000 }) ∧
    (strBytes "tp" ≠ getUserScopedParameterName (strBytes "tp") (strBytes "userA")) ∧
    ((Tasty.getValidAccessToken
        (Tasty.saveTokens (fun _ => none) (strBytes "tp")
          { accessToken := strBytes "tokB", refreshToken := strBytes "rB",
            expiresAt := some 1000000000000 })
        (strBytes "tp") 0
        { status := 500, contentType := strBytes "ct", payloadMessage := strBytes "pm",
          access_token := none, refresh_token := none, expires_in := none }).1 =
      Except.ok (some (strBytes "tokB"))) := by
  refine ⟨rfl, by decide, ?_⟩
  rfl

/-- C1 (amended): in the Schwab handler every token-cache write and read
derives its parameter key deterministically from the fixed provider prefix
and the verified subject id (`prefix ++ "/" ++ userSub`, never a
caller-supplied key), so a save for user B is invisible to user A's read and
`getValidAccessToken` for A is unaffected by B's record; the TastyTrade
handler, by contrast, keeps a single record under the fixed parameter name
shared by all callers. -/
theorem claim_C1_amended_schwab_key_isolation (pname uA uB : Bytes) (rec : TokenRecord)
    (store : Store) (now : Int) (resp : Schwab.SchwabTokenResponse)
    (hne : uA ≠ uB) :
    (Schwab.saveTokens store pname rec uB =
      putParam store (getUserScopedParameterName pname uB) rec) ∧
    (Schwab.getStoredTokens store pname uA =
      store (getUserScopedParameterName pname uA)) ∧
    (Schwab.getStoredTokens (Schwab.saveTokens store pname rec uB) pname uA =
      Schwab.getStoredTokens store pname uA) ∧
    ((Schwab.getValidAccessToken (Schwab.saveTokens store pname rec uB) pname uA now resp).1 =
      (Schwab.getValidAccessToken store pname uA now resp).1) ∧
    (Tasty.saveTokens store pname rec = putParam store pname rec) := by
  have hkeyne : getUserScopedParameterName pname uA ≠ getUserScopedParameterName pname uB :=
    fun h => hne (getUserScopedParameterName_inj pname uA uB h)
  have hread : Schwab.getStoredTokens (Schwab.saveTokens store pname rec uB) pname uA =
      Schwab.getStoredTokens store pname uA := by
    simp [Schwab.getStoredTokens, Schwab.saveTokens, putParam, hkeyne]
  refine ⟨rfl, rfl, hread, ?_, rfl⟩
  cases hrec : Schwab.getStoredTokens store pname uA with
  | none => simp only [Schwab.getValidAccessToken, hread, hrec]
  | some st =>
      simp only [Schwab.getValidAccessToken, hread, hrec]
      by_cases hguard : st.accessToken = [] ∨ st.refreshToken = []
      · rw [if_pos hguard, if_pos hguard]
      · rw [if_neg hguard, if_neg hguard]
        by_cases hexp2 : ¬ isExpired st.expiresAt now
        · rw [if_pos hexp2, if_pos hexp2]
        · rw [if_neg hexp2, if_neg hexp2]
          cases hreq : Schwab.requestToken resp with
          | error m => simp [Schwab.refreshAccessToken, hreq]
          | ok p => simp [Schwab.refreshAccessToken, hreq]

theorem claim_C1_amended_schwab_key_isolation_witness :
    (Schwab.saveTokens (fun _ => none) (strBytes "sp")
        { accessToken := strBytes "tokB", refreshToken := strBytes "rB",
          expiresAt := some 1000000000000 } (strBytes "B") =
      putParam (fun _ => none)
        (getUserScopedParameterName (strBytes "sp") (strBytes "B"))
        { accessToken := strBytes "tokB", refreshToken := strBytes "rB",
          expiresAt := some 1000000000000 }) ∧
    (Schwab.getStoredTokens (fun _ => none) (strBytes "sp") (strBytes "A") =
      (fun _ => none : Store) (getUserScopedParameterName (strBytes "sp") (strBytes "A"))) ∧
    (Schwab.getStoredTokens
        (Schwab.saveTokens (fun _ => none) (strBytes "sp")
          { accessToken := strBytes "tokB", refreshToken := strBytes "rB",
            expiresAt := some 1000000000000 } (strBytes "B"))
        (strBytes "sp") (strBytes "A") =
      Schwab.getStoredTokens (fun _ => none) (strBytes "sp") (strBytes "A")) ∧
    ((Schwab.getValidAccessToken
        (Schwab.saveTokens (fun _ => none) (strBytes "sp")
          { accessToken := strBytes "tokB", refreshToken := strBytes "rB",
            expiresAt := some 1000000000000 } (strBytes "B"))
        (strBytes "sp") (strBytes "A") 0
        { ok := false, error := none, access_token := none, refresh_token := none,
          expires_in := none }).1 =
      (Schwab.getValidAccessToken (fun _ => none) (strBytes "sp") (strBytes "A") 0
        { ok := false, error := none, access_token := none, refresh_token := none,
          expires_in := none }).1) ∧
    (Tasty.saveTokens (fun _ => none) (strBytes "sp")
        { accessToken := strBytes "tokB", refreshToken := strBytes "rB",
          expiresAt := some 1000000000000 } =
      putParam (fun _ => none) (strBytes "sp")
        { accessToken := strBytes "tokB", refreshToken := strBytes "rB",
          expiresAt := some 1000000000000 }) :=
  claim_C1_amended_schwab_key_isolation (strBytes "sp") (strBytes "A") (strBytes "B")
    { accessToken := strBytes "tokB", refreshToken := strBytes "rB",
      expiresAt := some 1000000000000 }
    (fun _ => none) 0
    { ok := false, error := none, access_token := none, refresh_token := none,
      expires_in := none }
    (by decide)
